import Mathlib

/-!
# ShaderTutors/common/glext.cpp

A shallow embedding of the effect (uniform registry and value banks), the mesh
object and the QM mesh loader of `glext.cpp`, with the properties of the
specification that were checked against it.

Conventions.

* `GLuint` / `unsigned int` values are natural numbers below `U32`; every
  arithmetic operation the source performs on them is followed by `% U32`.
* `float` values are never computed with here; they are stored, copied and
  uploaded.  A float is represented by its IEEE-754 single precision bit
  pattern, a natural number.
* The float and integer banks are maps from a word index (one word is one
  `float` / `int`) to the word stored there.  The block a bank pointer points
  to is only ever set by `realloc(values, newcap * 4 * sizeof(..))` together
  with `cap = newcap`, so it has `regWords cap` words (none for the null
  pointer of a new effect); `memset`, `memcpy` and `reg[0] = value` have a
  defined result only inside that block.  `realloc` is taken to succeed; it
  keeps every word, and a word that C leaves indeterminate simply has the
  value the map already had.
* `glext.h` is not part of the sources at hand.  What is taken from it is
  marked where it is used: the size of the name buffer of a uniform is the
  parameter `namecap`, the numeric values of the usage enumerators are the
  parameter `U`, the registry container is modelled from the specification,
  and the integer members of `Uniform`, `OpenGLEffect` and `OpenGLMesh` are
  taken to be 32 bits wide, as the locals and parameters that are stored in
  them are.
* An `Option` result `none` stands for a run the C standard gives no meaning
  to (a write past a fixed buffer or past the block of a bank, a read past a
  table) or, in the loader, for a file that ends before the loader has read
  what it needs.
-/

namespace GLExt

/-- Number of values of a `GLuint` / `unsigned int`. -/
def U32 : Nat := 4294967296

/-! ## OpenGL type enumerants (values of the OpenGL registry) -/

def GL_INT : Nat := 0x1404
def GL_FLOAT : Nat := 0x1406
def GL_FLOAT_VEC2 : Nat := 0x8B50
def GL_FLOAT_VEC3 : Nat := 0x8B51
def GL_FLOAT_VEC4 : Nat := 0x8B52
def GL_INT_VEC2 : Nat := 0x8B53
def GL_INT_VEC3 : Nat := 0x8B54
def GL_INT_VEC4 : Nat := 0x8B55
def GL_FLOAT_MAT4 : Nat := 0x8B5C
def GL_SAMPLER_2D : Nat := 0x8B5E
def GL_IMAGE_2D : Nat := 0x904D

/-! ## Uniform registry -/

/-- One named shader parameter (`OpenGLEffect::Uniform`).  The struct is declared in
`glext.h`; its fields are the ones `glext.cpp` reads and writes.  `Name` is a C
string held in a fixed buffer of `namecap` bytes (see `AddUniform`). -/
structure Uniform where
  Name : String
  StartRegister : Nat
  RegisterCount : Nat
  Location : Nat
  Type_ : Nat
  Changed : Bool
deriving DecidableEq, Repr

/-- Lexicographic comparison of two byte strings, the order `strcmp` induces. -/
def strcmpLt : List Nat → List Nat → Bool
  | [], [] => false
  | [], _ :: _ => true
  | _ :: _, [] => false
  | a :: as, b :: bs => if a < b then true else if b < a then false else strcmpLt as bs

/-- Order of two uniform names. -/
def nameLt (a b : String) : Bool :=
  strcmpLt (a.data.map Char.toNat) (b.data.map Char.toNat)

/-- Position at which a uniform is placed in the name-ordered array. -/
def orderedPlace (uni : Uniform) : List Uniform → List Uniform
  | [] => [uni]
  | v :: vs => if nameLt uni.Name v.Name then uni :: v :: vs else v :: orderedPlace uni vs

/-- Modelled from the spec: the registry container (`uniforms`, declared in `glext.h`) is
an "ordered collection of Uniforms keyed by name", and `insert` "fails -- by design -- if
that key already exists".  A uniform whose name is already present is not inserted. -/
def uniforms_insert (us : List Uniform) (uni : Uniform) : List Uniform :=
  if us.any (fun v => v.Name = uni.Name) then us else orderedPlace uni us

/-- Modelled from the spec: `uniforms.find(test)` "looks up the Uniform by name".  The
result is the index of the entry with that name, and a value that is not below
`uniforms.size()` when there is none. -/
def uniforms_find (us : List Uniform) (name : String) : Nat :=
  us.findIdx (fun v => v.Name = name)

/-! ## Effect state -/

/-- State of an `OpenGLEffect`: the two banks, their capacities and sizes (in registers
of four words), the program handle and the registry. -/
structure OpenGLEffect where
  floatvalues : Nat → Nat
  intvalues : Nat → Nat
  floatcap : Nat
  floatsize : Nat
  intcap : Nat
  intsize : Nat
  program : Nat
  uniforms : List Uniform

/-- State left by the constructor `OpenGLEffect::OpenGLEffect()`.  The bank pointers are
null; `fmem` and `imem` are what the words of the banks hold when first allocated. -/
def OpenGLEffect.new (fmem imem : Nat → Nat) : OpenGLEffect :=
  { floatvalues := fmem, intvalues := imem, floatcap := 0, floatsize := 0,
    intcap := 0, intsize := 0, program := 0, uniforms := [] }

/-- The product `x * 4` the source forms from a register number or a register count, to
index the words of a bank or to count them: a product of 32-bit integers. -/
def regWords (x : Nat) : Nat :=
  (x * 4) % U32

/-- Number of words of the block `floatvalues` points to: `realloc` gave it
`floatcap * 4 * sizeof(float)` bytes, with `floatcap * 4` a product of 32-bit integers. -/
def floatWords (s : OpenGLEffect) : Nat :=
  regWords s.floatcap

/-- Number of words of the block `intvalues` points to. -/
def intWords (s : OpenGLEffect) : Nat :=
  regWords s.intcap

/-- Whether a write of `n` words from word `off` on stays inside a block of `size` words.
A write of no word at all touches nothing: `memset` and `memcpy` are taken to do nothing
for a length of 0. -/
def insideBlock (off n size : Nat) : Bool :=
  n == 0 || decide (off + n ≤ size)

/-- The call `memset(base + off, 0, n words)` on a bank. -/
def memset0 (bank : Nat → Nat) (off n : Nat) : Nat → Nat :=
  fun i => if off ≤ i ∧ i < off + n then 0 else bank i

/-- The call `memcpy(base + off, value, n words)` on a bank. -/
def memcpyWords (bank : Nat → Nat) (off : Nat) (value : Nat → Nat) (n : Nat) : Nat → Nat :=
  fun i => if off ≤ i ∧ i < off + n then value (i - off) else bank i

/-- The test `type == GL_FLOAT || (type >= GL_FLOAT_VEC2 && type <= GL_FLOAT_VEC4) ||
type == GL_FLOAT_MAT4` of `AddUniform`. -/
def isFloatFamily (type : Nat) : Bool :=
  type == GL_FLOAT || (GL_FLOAT_VEC2 ≤ type && type ≤ GL_FLOAT_VEC4) || type == GL_FLOAT_MAT4

/-- The test `type == GL_INT || (type >= GL_INT_VEC2 && type <= GL_INT_VEC4) ||
type == GL_SAMPLER_2D || type == GL_IMAGE_2D` of `AddUniform`. -/
def isIntFamily (type : Nat) : Bool :=
  type == GL_INT || (GL_INT_VEC2 ≤ type && type ≤ GL_INT_VEC4) || type == GL_SAMPLER_2D
    || type == GL_IMAGE_2D

/-- The register count `AddUniform` works with: `if (type == GL_FLOAT_MAT4) count = 4;`. -/
def effectiveCount (count type : Nat) : Nat :=
  if type = GL_FLOAT_MAT4 then 4 else count

/-- Capacity after the growth step of `AddUniform`:
`if (size + count > cap) cap = max(size + count, size + 8);` in `unsigned int`. -/
def grownCap (size count cap : Nat) : Nat :=
  if (size + count) % U32 > cap then max ((size + count) % U32) ((size + 8) % U32) else cap

/-- The record `uni` that `AddUniform` fills in before inserting it; `count` is the count
after the `GL_FLOAT_MAT4` override and `start` the size of the bank it goes to. -/
def newUniform (name : String) (location count type start : Nat) : Uniform :=
  { Name := name, StartRegister := start, RegisterCount := count,
    Location := location, Type_ := type, Changed := true }

/-- Source function `OpenGLEffect::AddUniform(name, location, count, type)`.  `namecap` is
`sizeof(uni.Name)`, a constant of `glext.h`.  `some (.error 1)` is `throw 1`; nothing of
the effect has been modified when it is thrown.  `some (.ok s1)` is a call that returns.
The result is `none` when the `memset` leaves the block of the bank, which after the
growth step has `newcap * 4` words, a product of 32-bit integers: the call then has no
defined result.  `realloc` is taken to succeed. -/
def AddUniform (namecap : Nat) (s : OpenGLEffect) (name : String)
    (location count type : Nat) : Option (Except Int OpenGLEffect) :=
  if name.length ≥ namecap then some (.error 1)
  else
    let count := effectiveCount count type
    if isFloatFamily type then
      let uni := newUniform name location count type s.floatsize
      let newcap := grownCap s.floatsize count s.floatcap
      if insideBlock (regWords uni.StartRegister) (regWords uni.RegisterCount)
          (regWords newcap) then
        some (.ok { s with
                    floatcap := newcap
                    floatvalues := memset0 s.floatvalues (regWords uni.StartRegister)
                      (regWords uni.RegisterCount)
                    floatsize := (s.floatsize + count) % U32
                    uniforms := uniforms_insert s.uniforms uni })
      else none
    else if isIntFamily type then
      let uni := newUniform name location count type s.intsize
      let newcap := grownCap s.intsize count s.intcap
      if insideBlock (regWords uni.StartRegister) (regWords uni.RegisterCount)
          (regWords newcap) then
        some (.ok { s with
                    intcap := newcap
                    intvalues := memset0 s.intvalues (regWords uni.StartRegister)
                      (regWords uni.RegisterCount)
                    intsize := (s.intsize + count) % U32
                    uniforms := uniforms_insert s.uniforms uni })
      else none
    else some (.error 1)

/-- What the driver reports for one active uniform: the name, size and type written by
`glGetActiveUniform` and the location returned by `glGetUniformLocation`.  `size` is
the `GLint` as it arrives in the `GLuint count` parameter of `AddUniform`. -/
structure ActiveUniform where
  name : String
  size : Nat
  type : Nat
  loc : Int
deriving DecidableEq, Repr

/-- The name left in `uniname` once every `[` has been overwritten by a terminator: the
characters before the first `[`. -/
def stripSubscript (name : String) : String :=
  String.mk (name.data.takeWhile (fun c => c != '['))

/-- The loop of `QueryUniforms` over the active uniforms.  The result is the state the
effect is left in and the value thrown by `AddUniform`, if one was: an exception leaves
the loop with the uniforms added so far in place.  It is `none` when a call of
`AddUniform` has no defined result. -/
def QueryUniforms_loop (namecap : Nat) : List ActiveUniform → OpenGLEffect →
    Option (OpenGLEffect × Option Int)
  | [], s => some (s, none)
  | a :: rest, s =>
    if a.loc = -1 then QueryUniforms_loop namecap rest s
    else
      match AddUniform namecap s (stripSubscript a.name) (a.loc % U32).toNat a.size a.type with
      | none => none
      | some (.ok s1) => QueryUniforms_loop namecap rest s1
      | some (.error e) => some (s, some e)

/-- Source function `OpenGLEffect::QueryUniforms()`; `active` is what the driver reports
for the indices
`0 .. count-1`.  The registry is cleared, the bank sizes are not. -/
def QueryUniforms (namecap : Nat) (s : OpenGLEffect) (active : List ActiveUniform) :
    Option (OpenGLEffect × Option Int) :=
  if s.program = 0 then some (s, none)
  else QueryUniforms_loop namecap active { s with uniforms := [] }

/-- Calls made to the driver by `Begin` and `CommitChanges`.  `data` is what the call
reads through its pointer argument. -/
inductive GLCall where
  | UseProgram (program : Nat)
  | Uniform1fv (location count : Nat) (data : List Nat)
  | Uniform2fv (location count : Nat) (data : List Nat)
  | Uniform3fv (location count : Nat) (data : List Nat)
  | Uniform4fv (location count : Nat) (data : List Nat)
  | UniformMatrix4fv (location count : Nat) (transpose : Bool) (data : List Nat)
  | Uniform1i (location : Nat) (v0 : Nat)
deriving DecidableEq, Repr

/-- The `n` words found from word `off` of a bank on. -/
def readWords (bank : Nat → Nat) (off n : Nat) : List Nat :=
  (List.range n).map (fun k => bank (off + k))

/-- The `switch (uni.Type)` of `CommitChanges`: the upload made for a uniform, and none
for the types that reach `default`. -/
def uploadCall (s : OpenGLEffect) (uni : Uniform) : Option GLCall :=
  let floatoff := regWords uni.StartRegister
  let intoff := regWords uni.StartRegister
  if uni.Type_ = GL_FLOAT then
    some (.Uniform1fv uni.Location uni.RegisterCount
      (readWords s.floatvalues floatoff uni.RegisterCount))
  else if uni.Type_ = GL_FLOAT_VEC2 then
    some (.Uniform2fv uni.Location uni.RegisterCount
      (readWords s.floatvalues floatoff (2 * uni.RegisterCount)))
  else if uni.Type_ = GL_FLOAT_VEC3 then
    some (.Uniform3fv uni.Location uni.RegisterCount
      (readWords s.floatvalues floatoff (3 * uni.RegisterCount)))
  else if uni.Type_ = GL_FLOAT_VEC4 then
    some (.Uniform4fv uni.Location uni.RegisterCount
      (readWords s.floatvalues floatoff (4 * uni.RegisterCount)))
  else if uni.Type_ = GL_FLOAT_MAT4 then
    some (.UniformMatrix4fv uni.Location (uni.RegisterCount / 4) false
      (readWords s.floatvalues floatoff (16 * (uni.RegisterCount / 4))))
  else if uni.Type_ = GL_SAMPLER_2D then
    some (.Uniform1i uni.Location (s.intvalues intoff))
  else none

/-- The loop of `CommitChanges` over the registry: the registry after it and the calls
made, in order. -/
def CommitChanges_loop (s : OpenGLEffect) : List Uniform → List Uniform × List GLCall
  | [] => ([], [])
  | uni :: rest =>
    let r := CommitChanges_loop s rest
    if !uni.Changed then (uni :: r.1, r.2)
    else ({ uni with Changed := false } :: r.1, (uploadCall s uni).toList ++ r.2)

/-- Source function `OpenGLEffect::CommitChanges()`: the state after it and the calls it
made. -/
def CommitChanges (s : OpenGLEffect) : OpenGLEffect × List GLCall :=
  let r := CommitChanges_loop s s.uniforms
  ({ s with uniforms := r.1 }, r.2)

/-- Source function `OpenGLEffect::Begin()`: `glUseProgram(program)` followed by
`CommitChanges()`. -/
def Begin (s : OpenGLEffect) : OpenGLEffect × List GLCall :=
  let r := CommitChanges s
  (r.1, GLCall.UseProgram s.program :: r.2)

/-- The assignment `uni.Changed = true` on the entry `id` of the registry. -/
def markChanged (us : List Uniform) (id : Nat) : List Uniform :=
  us.modify (fun uni => { uni with Changed := true }) id

/-- Source function `OpenGLEffect::SetVector(name, value)`; `value k` is the word
`value[k]` of the
caller.  The result is `none` when `strcpy(test.Name, name)` writes past the
`namecap` bytes of `test.Name`, and when the `memcpy` leaves the block of the float
bank (which is null as long as no float uniform was added): neither has a defined
behaviour. -/
def SetVector (namecap : Nat) (s : OpenGLEffect) (name : String) (value : Nat → Nat) :
    Option OpenGLEffect :=
  if name.length ≥ namecap then none
  else
    let id := uniforms_find s.uniforms name
    if h : id < s.uniforms.length then
      let uni := s.uniforms.get ⟨id, h⟩
      if insideBlock (regWords uni.StartRegister) (regWords uni.RegisterCount)
          (floatWords s) then
        some { s with
               floatvalues := memcpyWords s.floatvalues (regWords uni.StartRegister) value
                 (regWords uni.RegisterCount)
               uniforms := markChanged s.uniforms id }
      else none
    else some s

/-- Source function `OpenGLEffect::SetMatrix(name, value)`, which calls `SetVector`. -/
def SetMatrix (namecap : Nat) (s : OpenGLEffect) (name : String) (value : Nat → Nat) :
    Option OpenGLEffect :=
  SetVector namecap s name value

/-- Source function `OpenGLEffect::SetFloat(name, value)`: `reg[0] = value` in the float
bank.  The result is `none` for a name that does not fit `test.Name` and when `reg[0]`
is not a word of the block of the float bank. -/
def SetFloat (namecap : Nat) (s : OpenGLEffect) (name : String) (value : Nat) :
    Option OpenGLEffect :=
  if name.length ≥ namecap then none
  else
    let id := uniforms_find s.uniforms name
    if h : id < s.uniforms.length then
      let uni := s.uniforms.get ⟨id, h⟩
      if insideBlock (regWords uni.StartRegister) 1 (floatWords s) then
        some { s with
               floatvalues := Function.update s.floatvalues (regWords uni.StartRegister) value
               uniforms := markChanged s.uniforms id }
      else none
    else some s

/-- Source function `OpenGLEffect::SetInt(name, value)`: `reg[0] = value` in the integer
bank.  The result is `none` for a name that does not fit `test.Name` and when `reg[0]`
is not a word of the block of the integer bank. -/
def SetInt (namecap : Nat) (s : OpenGLEffect) (name : String) (value : Nat) :
    Option OpenGLEffect :=
  if name.length ≥ namecap then none
  else
    let id := uniforms_find s.uniforms name
    if h : id < s.uniforms.length then
      let uni := s.uniforms.get ⟨id, h⟩
      if insideBlock (regWords uni.StartRegister) 1 (intWords s) then
        some { s with
               intvalues := Function.update s.intvalues (regWords uni.StartRegister) value
               uniforms := markChanged s.uniforms id }
      else none
    else some s

/-! ## Mesh -/

def GL_UNSIGNED_BYTE : Nat := 0x1401
def GL_UNSIGNED_SHORT : Nat := 0x1403
def GL_UNSIGNED_INT : Nat := 0x1405
def GL_TRIANGLES : Nat := 0x0004

/-- Modelled from the spec: the element type codes of `glext.h` (`OpenGLDeclType`), "float1
.. float4 / packed color", numbered 0 to 4 in that order. -/
def GLDECLTYPE_FLOAT1 : Nat := 0
def GLDECLTYPE_FLOAT2 : Nat := 1
def GLDECLTYPE_FLOAT3 : Nat := 2
def GLDECLTYPE_FLOAT4 : Nat := 3
def GLDECLTYPE_GLCOLOR : Nat := 4

/-- Names of the enumerators of `OpenGLDeclUsage` that `glext.cpp` mentions.  Their
numeric values are fixed in `glext.h`; the functions below take them as the
parameter `U`. -/
inductive DeclUsage where
  | POSITION | POSITIONT | COLOR | BLENDWEIGHT | BLENDINDICES | NORMAL | TEXCOORD
  | TANGENT | BINORMAL | PSIZE | TESSFACTOR
deriving DecidableEq, Repr

/-- One field of a vertex layout (`OpenGLVertexElement`). -/
structure OpenGLVertexElement where
  Stream : Nat
  Offset : Nat
  Type_ : Nat
  Usage : Nat
  UsageIndex : Nat
deriving DecidableEq, Repr

/-- One drawable range of a mesh (`OpenGLAttributeRange`). -/
structure OpenGLAttributeRange where
  AttribId : Nat
  FaceStart : Nat
  FaceCount : Nat
  VertexStart : Nat
  VertexCount : Nat
deriving DecidableEq, Repr

/-- Calls that `GLCreateMesh` records in the vertex array object and calls made when
drawing. -/
inductive MeshCall where
  | EnableVertexAttribArray (index : Nat)
  | VertexAttribPointer (index size type : Nat) (normalized : Bool) (stride pointer : Nat)
  | Unhandled
  | DrawElements (mode count type indices : Nat)
deriving DecidableEq, Repr

/-- The members of an `OpenGLMesh` that `glext.cpp` computes, and the calls recorded in
its vertex layout. -/
structure OpenGLMesh where
  numvertices : Nat
  numindices : Nat
  stride : Nat
  subsettable : List OpenGLAttributeRange
  layout : List MeshCall
deriving DecidableEq, Repr

/-- The `switch (elem.Type)` of the stride loop: the bytes added for one element. -/
def declTypeSize (type : Nat) : Nat :=
  if type = GLDECLTYPE_GLCOLOR ∨ type = GLDECLTYPE_FLOAT1 then 4
  else if type = GLDECLTYPE_FLOAT2 then 8
  else if type = GLDECLTYPE_FLOAT3 then 12
  else if type = GLDECLTYPE_FLOAT4 then 16
  else 0

/-- The loop "calculate stride" of `GLCreateMesh`; `n` is the number of iterations left
of the sixteen.  Running off the end of the array (no sentinel among the elements
visited) stops the loop here; C gives it no meaning. -/
def strideLoop : Nat → List OpenGLVertexElement → Nat → Nat
  | 0, _, stride => stride
  | _ + 1, [], stride => stride
  | n + 1, elem :: rest, stride =>
    if elem.Stream = 0xff then stride
    else strideLoop n rest (stride + declTypeSize elem.Type_)

/-- The calls of one iteration of the loop "bind locations". -/
def bindElement (U : DeclUsage → Nat) (stride : Nat) (elem : OpenGLVertexElement) :
    List MeshCall :=
  [ MeshCall.EnableVertexAttribArray elem.Usage,
    if elem.Usage = U .POSITION then
      .VertexAttribPointer elem.Usage (if elem.Type_ = GLDECLTYPE_FLOAT4 then 4 else 3)
        GL_FLOAT false stride elem.Offset
    else if elem.Usage = U .COLOR then
      .VertexAttribPointer elem.Usage 4 GL_UNSIGNED_BYTE true stride elem.Offset
    else if elem.Usage = U .NORMAL then
      .VertexAttribPointer elem.Usage 3 GL_FLOAT false stride elem.Offset
    else if elem.Usage = U .TEXCOORD then
      .VertexAttribPointer (elem.Usage + elem.UsageIndex) (elem.Type_ + 1) GL_FLOAT false
        stride elem.Offset
    else .Unhandled ]

/-- The loop "bind locations" of `GLCreateMesh`. -/
def bindLoop (U : DeclUsage → Nat) (stride : Nat) : Nat → List OpenGLVertexElement →
    List MeshCall
  | 0, _ => []
  | _ + 1, [] => []
  | n + 1, elem :: rest =>
    if elem.Stream = 0xff then []
    else bindElement U stride elem ++ bindLoop U stride n rest

/-- Source function `GLCreateMesh(numfaces, numvertices, options, decl, mesh)`: the mesh
it creates.  It
always returns `true`.  `numfaces * 3` is a product of `GLuint`s. -/
def GLCreateMesh (U : DeclUsage → Nat) (numfaces numvertices options : Nat)
    (decl : List OpenGLVertexElement) : OpenGLMesh :=
  let _ := options
  let stride := strideLoop 16 decl 0
  { numvertices := numvertices
    numindices := (numfaces * 3) % U32
    stride := stride
    subsettable := []
    layout := bindLoop U stride 16 decl }

/-- Source function `OpenGLMesh::LockVertexBuffer`: the number of bytes it allocates,
`numvertices * vertexdecl.stride`.  The two factors are members of the mesh, which hold
the `GLuint` values `GLCreateMesh` stores in them; their product is a product of 32-bit
integers. -/
def LockVertexBuffer (m : OpenGLMesh) : Nat :=
  (m.numvertices * m.stride) % U32

/-- The local `istride` of `OpenGLMesh::LockIndexBuffer`. -/
def LockIndexBuffer_istride (m : OpenGLMesh) : Nat :=
  if m.numvertices ≥ 0xffff then 4 else 2

/-- Source function `OpenGLMesh::LockIndexBuffer`: the number of bytes it allocates. -/
def LockIndexBuffer (m : OpenGLMesh) : Nat :=
  m.numindices * LockIndexBuffer_istride m

/-- The local `istride` of `OpenGLMesh::UnlockIndexBuffer`. -/
def UnlockIndexBuffer_istride (m : OpenGLMesh) : Nat :=
  if m.numvertices ≥ 0xffff then 4 else 2

/-- Source function `OpenGLMesh::UnlockIndexBuffer`: the number of bytes it hands to
`glBufferData`. -/
def UnlockIndexBuffer (m : OpenGLMesh) : Nat :=
  m.numindices * UnlockIndexBuffer_istride m

/-- Source function `OpenGLMesh::DrawSubset(subset)`: the draw call it makes. -/
def DrawSubset (m : OpenGLMesh) (subset : Nat) : MeshCall :=
  let _ := subset
  .DrawElements GL_TRIANGLES m.numindices
    (if m.numvertices ≥ 0xffff then GL_UNSIGNED_INT else GL_UNSIGNED_SHORT) 0

/-- Bytes of one index of the type named in a draw call. -/
def indexTypeBytes (type : Nat) : Nat :=
  if type = GL_UNSIGNED_INT then 4 else if type = GL_UNSIGNED_SHORT then 2
  else if type = GL_UNSIGNED_BYTE then 1 else 0

/-- Index width that `DrawSubset` tells the driver to read. -/
def DrawSubset_istride (m : OpenGLMesh) : Nat :=
  match DrawSubset m 0 with
  | .DrawElements _ _ type _ => indexTypeBytes type
  | _ => 0

/-- Source function `OpenGLMesh::SetAttributeTable(table, size)`. -/
def SetAttributeTable (m : OpenGLMesh) (table : List OpenGLAttributeRange) (size : Nat) :
    OpenGLMesh :=
  { m with subsettable := table.take size }

/-! ## QM loader

A file is the list of the bytes still to be read.  A function returns `none` where the
source reads past the end of the file (the variables it then uses were never filled) or
steps outside one of its buffers or tables. -/

/-- The call `fread(&tmp8, 1, 1, infile)`. -/
def readU8 : List Nat → Option (Nat × List Nat)
  | [] => none
  | b :: rest => some (b % 256, rest)

/-- The call `fread(&tmp16, 2, 1, infile)`, little-endian. -/
def readU16 : List Nat → Option (Nat × List Nat)
  | b0 :: b1 :: rest => some (b0 % 256 + 256 * (b1 % 256), rest)
  | _ => none

/-- The call `fread(&x, 4, 1, infile)` for a 32-bit `x`, little-endian. -/
def readU32 : List Nat → Option (Nat × List Nat)
  | b0 :: b1 :: b2 :: b3 :: rest =>
    some (b0 % 256 + 256 * (b1 % 256) + 65536 * (b2 % 256) + 16777216 * (b3 % 256), rest)
  | _ => none

/-- The call `fread(data, size, count, infile)` into a buffer: the bytes read. -/
def readBytes (n : Nat) (f : List Nat) : Option (List Nat × List Nat) :=
  if n ≤ f.length then some (f.take n, f.drop n) else none

/-- The call `fseek(infile, n, SEEK_CUR)` with `n` not negative. -/
def fseekCur (n : Nat) (f : List Nat) : List Nat :=
  f.drop n

/-- The loop of `GLReadString`; `buff` is the 256 byte array of the caller and `ind` the
index written next.  At the end of the file `fgetc` keeps returning `EOF`, which is
not a newline, so the loop leaves the array. -/
def GLReadString_loop : List Nat → (Nat → Nat) → Nat → Option ((Nat → Nat) × List Nat)
  | [], _, _ => none
  | ch :: rest, buff, ind =>
    if ind < 256 then
      if ch % 256 = 10 then some (Function.update buff ind 0, rest)
      else GLReadString_loop rest (Function.update buff ind (ch % 256)) (ind + 1)
    else none

/-- Source function `GLReadString(f, buff)`. -/
def GLReadString (f : List Nat) (buff : Nat → Nat) : Option ((Nat → Nat) × List Nat) :=
  GLReadString_loop f buff 0

/-- A run of `n` calls `GLReadString(infile, buff)`. -/
def GLReadStrings : Nat → List Nat → (Nat → Nat) → Option ((Nat → Nat) × List Nat)
  | 0, f, buff => some (buff, f)
  | n + 1, f, buff =>
    match GLReadString f buff with
    | none => none
    | some (buff1, f1) => GLReadStrings n f1 buff1

/-- The bytes `memcpy(mat.TextureFile, buff, strlen(buff))` copies out of `buff`. -/
def cstr (buff : Nat → Nat) : List Nat :=
  ((List.range 256).map buff).takeWhile (fun c => c != 0)

/-- Four floats (`OpenGLColor`), as bit patterns. -/
structure OpenGLColor where
  r : Nat
  g : Nat
  b : Nat
  a : Nat
deriving DecidableEq, Repr

/-- Shading parameters of one subset (`OpenGLMaterial`); `TextureFile` is `none` for the
null pointer. -/
structure OpenGLMaterial where
  Diffuse : OpenGLColor
  Ambient : OpenGLColor
  Specular : OpenGLColor
  Emissive : OpenGLColor
  Power : Nat
  TextureFile : Option (List Nat)
deriving DecidableEq, Repr

/-- Bit pattern of `0.0f`. -/
def f32_0 : Nat := 0x00000000
/-- Bit pattern of `1.0f`. -/
def f32_1 : Nat := 0x3F800000
/-- Bit pattern of `80.0f`. -/
def f32_80 : Nat := 0x42A00000

/-- The call `fread(&color, sizeof(OpenGLColor), 1, infile)`. -/
def readColor (f : List Nat) : Option (OpenGLColor × List Nat) :=
  match readU32 f with
  | none => none
  | some (r, f1) =>
    match readU32 f1 with
    | none => none
    | some (g, f2) =>
      match readU32 f2 with
      | none => none
      | some (b, f3) =>
        match readU32 f3 with
        | none => none
        | some (a, f4) => some ({ r := r, g := g, b := b, a := a }, f4)

/-- The reads of the branch `if (hasmaterial) { ... }` up to the reserved field: four
colors, the power, the alpha of the diffuse color and the field itself. -/
def readMaterialValues (f : List Nat) : Option (OpenGLMaterial × List Nat) :=
  match readColor f with
  | none => none
  | some (ambient, f1) =>
    match readColor f1 with
    | none => none
    | some (diffuse, f2) =>
      match readColor f2 with
      | none => none
      | some (specular, f3) =>
        match readColor f3 with
        | none => none
        | some (emissive, f4) =>
          match readU32 f4 with
          | none => none
          | some (power, f5) =>
            match readU32 f5 with
            | none => none
            | some (alpha, f6) =>
              match readU32 f6 with
              | none => none
              | some (_, f7) =>
                some ({ Ambient := ambient, Diffuse := { diffuse with a := alpha },
                        Specular := specular, Emissive := emissive, Power := power,
                        TextureFile := none }, f7)

/-- The branch `if (hasmaterial) { ... }` of the subset loop. -/
def readMaterialBlock (buff : Nat → Nat) (f : List Nat) :
    Option (OpenGLMaterial × (Nat → Nat) × List Nat) :=
  match readMaterialValues f with
  | none => none
  | some (mat, f1) =>
    match GLReadString f1 buff with
    | none => none
    | some (buff1, f2) =>
      let mat1 := if buff1 1 != 44 then { mat with TextureFile := some (cstr buff1) } else mat
      match GLReadStrings 7 f2 buff1 with
      | none => none
      | some (buff2, f3) => some (mat1, buff2, f3)

/-- The branch `else { ... }` of the subset loop: the material it leaves. -/
def defaultMaterial : OpenGLMaterial :=
  { Ambient := ⟨f32_1, f32_1, f32_1, f32_1⟩
    Diffuse := ⟨f32_1, f32_1, f32_1, f32_1⟩
    Specular := ⟨f32_1, f32_1, f32_1, f32_1⟩
    Emissive := ⟨f32_0, f32_0, f32_0, f32_1⟩
    Power := f32_80
    TextureFile := none }

/-- The end of one iteration of the subset loop, from the `GLReadString` that follows the
material branch: the fallback texture name and seven more text fields. -/
def readSubsetTail (mat : OpenGLMaterial) (buff : Nat → Nat) (f : List Nat) :
    Option (OpenGLMaterial × (Nat → Nat) × List Nat) :=
  match GLReadString f buff with
  | none => none
  | some (buff1, f1) =>
    let mat1 := if buff1 1 != 44 && mat.TextureFile.isNone
      then { mat with TextureFile := some (cstr buff1) } else mat
    match GLReadStrings 7 f1 buff1 with
    | none => none
    | some (buff2, f2) => some (mat1, buff2, f2)

/-- The start of one iteration `i` of the subset loop: the five `fread`s into the
attribute range, the two divisions by 3 and the `fseek` over six floats. -/
def readSubsetHeader (i : Nat) (f : List Nat) : Option (OpenGLAttributeRange × List Nat) :=
  match readU32 f with
  | none => none
  | some (faceStart, f1) =>
    match readU32 f1 with
    | none => none
    | some (vertexStart, f2) =>
      match readU32 f2 with
      | none => none
      | some (vertexCount, f3) =>
        match readU32 f3 with
        | none => none
        | some (faceCount, f4) =>
          match readU32 f4 with
          | none => none
          | some (_, f5) =>
            some ({ AttribId := i, FaceStart := faceStart / 3, VertexStart := vertexStart,
                    VertexCount := vertexCount, FaceCount := faceCount / 3 },
                  fseekCur 24 f5)

/-- One iteration `i` of the subset loop of `GLLoadMeshFromQM`. -/
def readSubset (i : Nat) (buff : Nat → Nat) (f : List Nat) :
    Option (OpenGLAttributeRange × OpenGLMaterial × (Nat → Nat) × List Nat) :=
  match readSubsetHeader i f with
  | none => none
  | some (subset, f1) =>
    match GLReadString f1 buff with
    | none => none
    | some (buff1, f2) =>
      match GLReadString f2 buff1 with
      | none => none
      | some (buff2, f3) =>
        let hasmaterial := buff2 1 != 44
        match (if hasmaterial then readMaterialBlock buff2 f3
               else some (defaultMaterial, buff2, f3)) with
        | none => none
        | some (mat, buff3, f4) =>
          match readSubsetTail mat buff3 f4 with
          | none => none
          | some (mat1, buff4, f5) => some (subset, mat1, buff4, f5)

/-- The subset loop: `n` iterations from index `i` on.  The result is the attribute
table, the materials and what is left of the file. -/
def readSubsets : Nat → Nat → (Nat → Nat) → List Nat →
    Option (List OpenGLAttributeRange × List OpenGLMaterial × List Nat)
  | 0, _, _, f => some ([], [], f)
  | n + 1, i, buff, f =>
    match readSubset i buff f with
    | none => none
    | some (subset, mat, buff1, f1) =>
      match readSubsets n (i + 1) buff1 f1 with
      | none => none
      | some (table, mats, f2) => some (subset :: table, mat :: mats, f2)

/-- The table `usages` of `GLLoadMeshFromQM`. -/
def usages : List DeclUsage :=
  [.POSITION, .POSITIONT, .COLOR, .BLENDWEIGHT, .BLENDINDICES, .NORMAL, .TEXCOORD,
   .TANGENT, .BINORMAL, .PSIZE, .TESSFACTOR]

/-- The table `elemsizes` of `GLLoadMeshFromQM`. -/
def elemsizes : List Nat := [1, 2, 3, 4, 4, 4]

/-- The table `elemstrides` of `GLLoadMeshFromQM`. -/
def elemstrides : List Nat := [4, 4, 4, 4, 1, 1]

/-- One element of the vertex declaration of the file, read when `vstride` bytes of the
vertex are laid out: the element and the `vstride` after it.  A usage or type code
outside the tables `usages`, `elemsizes`, `elemstrides` gives `none`. -/
def readDeclElement (U : DeclUsage → Nat) (vstride : Nat) (f : List Nat) :
    Option (OpenGLVertexElement × Nat × List Nat) :=
  match readU16 f with
  | none => none
  | some (stream, f1) =>
    match readU8 f1 with
    | none => none
    | some (usageCode, f2) =>
      match usages.get? usageCode, readU8 f2 with
      | some usage, some (type, f3) =>
        match readU8 f3, elemsizes.get? type, elemstrides.get? type with
        | some (usageIndex, f4), some esize, some estride =>
          some ({ Stream := stream, Usage := U usage, Type_ := type,
                  UsageIndex := usageIndex, Offset := vstride },
                (vstride + esize * estride) % U32, f4)
        | _, _, _ => none
      | _, _ => none

/-- The loop over the vertex declaration of the file: `n` elements left, `vstride` so
far.  The result is the elements, the final `vstride` and the rest of the file. -/
def readDecl (U : DeclUsage → Nat) : Nat → Nat → List Nat →
    Option (List OpenGLVertexElement × Nat × List Nat)
  | 0, vstride, f => some ([], vstride, f)
  | n + 1, vstride, f =>
    match readDeclElement U vstride f with
    | none => none
    | some (elem, vstride1, f1) =>
      match readDecl U n vstride1 f1 with
      | none => none
      | some (rest, vstride2, f2) => some (elem :: rest, vstride2, f2)

/-- The fields of the header of a QM file that `GLLoadMeshFromQM` keeps. -/
structure QMHeader where
  version : Nat
  numindices : Nat
  istride : Nat
  numsubsets : Nat
  numvertices : Nat
  numelems : Nat
deriving DecidableEq, Repr

/-- The first four `fread`s of `GLLoadMeshFromQM`. -/
def readHeader1 (f : List Nat) : Option ((Nat × Nat × Nat × Nat) × List Nat) :=
  match readU32 f with
  | none => none
  | some (unused, f1) =>
    match readU32 f1 with
    | none => none
    | some (numindices, f2) =>
      match readU32 f2 with
      | none => none
      | some (istride, f3) =>
        match readU32 f3 with
        | none => none
        | some (numsubsets, f4) => some ((unused, numindices, istride, numsubsets), f4)

/-- The `fread`s of `GLLoadMeshFromQM` up to `numelems`, with `version = unused >> 16`. -/
def readHeader (f : List Nat) : Option (QMHeader × List Nat) :=
  match readHeader1 f with
  | none => none
  | some ((unused, numindices, istride, numsubsets), f4) =>
    match readHeader1 f4 with
    | none => none
    | some ((numvertices, _, _, _), f8) =>
      match readU32 f8 with
      | none => none
      | some (numelems, f9) =>
        some ({ version := unused / 65536, numindices := numindices, istride := istride,
                numsubsets := numsubsets, numvertices := numvertices,
                numelems := numelems }, f9)

/-- What `GLLoadMeshFromQM` has read and built when the index payload has been read. -/
structure QMGeometry where
  version : Nat
  numindices : Nat
  istride : Nat
  numsubsets : Nat
  numvertices : Nat
  vstride : Nat
  decl : List OpenGLVertexElement
  mesh : OpenGLMesh
  vertexdata : List Nat
  indexdata : List Nat
deriving DecidableEq, Repr

/-- The element with `Stream == 0xff` that ends a layout array; `GLLoadMeshFromQM` writes it
in `decl[numelems]` with all other fields 0. -/
def sentinelElement : OpenGLVertexElement :=
  { Stream := 0xff, Offset := 0, Type_ := 0, Usage := 0, UsageIndex := 0 }

/-- The part of `GLLoadMeshFromQM` up to and including the read of the index payload: the header, the
declaration, `GLCreateMesh`, the vertex and the index payload.  The second component is
the file from the end of the index payload on.  A payload longer than the buffer locked
for it gives `none`. -/
def readGeometry (U : DeclUsage → Nat) (f : List Nat) : Option (QMGeometry × List Nat) :=
  match readHeader f with
  | none => none
  | some (h, f1) =>
    if h.numelems + 1 ≥ U32 then none
    else
      match readDecl U h.numelems 0 f1 with
      | none => none
      | some (elems, vstride, f2) =>
        let decl := elems ++ [sentinelElement]
        let mesh := GLCreateMesh U (h.numindices / 3) h.numvertices 0 decl
        if vstride * h.numvertices > LockVertexBuffer mesh then none
        else
          match readBytes (vstride * h.numvertices) f2 with
          | none => none
          | some (vertexdata, f3) =>
            if h.istride * h.numindices > LockIndexBuffer mesh then none
            else
              match readBytes (h.istride * h.numindices) f3 with
              | none => none
              | some (indexdata, f4) =>
                some ({ version := h.version, numindices := h.numindices,
                        istride := h.istride, numsubsets := h.numsubsets,
                        numvertices := h.numvertices, vstride := vstride, decl := decl,
                        mesh := mesh, vertexdata := vertexdata, indexdata := indexdata },
                      f4)

/-- The block `if (version > 1) { ... }` of `GLLoadMeshFromQM`: the file after it.  The
offset `8 * unused` is a product of `unsigned int`s; it is passed to `fseek` as a `long`
that holds every such value (64 bits). -/
def skipExtra (version : Nat) (f : List Nat) : Option (List Nat) :=
  if version > 1 then
    match readU32 f with
    | none => none
    | some (unused, f1) => if unused > 0 then some (fseekCur ((8 * unused) % U32) f1) else some f1
  else some f

/-- What `GLLoadMeshFromQM` hands back: the mesh, `*materials` and `*nummaterials`, and
the payloads it uploaded. -/
structure QMResult where
  mesh : OpenGLMesh
  materials : List OpenGLMaterial
  nummaterials : Nat
  vertexdata : List Nat
  indexdata : List Nat
deriving DecidableEq, Repr

/-- The part of `GLLoadMeshFromQM` from the attribute table on: the subset loop run on `f`, and the
mesh and materials handed back. -/
def loadSubsets (g : QMGeometry) (buff : Nat → Nat) (f : List Nat) : Option QMResult :=
  match readSubsets g.numsubsets 0 buff f with
  | none => none
  | some (table, mats, _) =>
    some { mesh := SetAttributeTable g.mesh table g.numsubsets, materials := mats,
           nummaterials := g.numsubsets, vertexdata := g.vertexdata,
           indexdata := g.indexdata }

/-- Source function `GLLoadMeshFromQM(file, materials, nummaterials, mesh)` on a file
that could be
opened; `f` is its content and `buff` what the local array `buff` holds on entry.
Every result `some r` is a call that returned `true`. -/
def GLLoadMeshFromQM (U : DeclUsage → Nat) (buff : Nat → Nat) (f : List Nat) :
    Option QMResult :=
  match readGeometry U f with
  | none => none
  | some (g, f1) =>
    match skipExtra g.version f1 with
    | none => none
    | some f2 => loadSubsets g buff f2

/-- State of the subset loop (the array `buff` and the rest of the file) when iteration
`i + k` starts, for a loop that is at iteration `i` with `buff` and `f`. -/
def subsetStart : Nat → Nat → (Nat → Nat) → List Nat → Option ((Nat → Nat) × List Nat)
  | 0, _, buff, f => some (buff, f)
  | k + 1, i, buff, f =>
    match readSubset i buff f with
    | none => none
    | some (_, _, buff1, f1) => subsetStart k (i + 1) buff1 f1

/-- State of `GLLoadMeshFromQM` when it starts to read subset record `k`. -/
def recordStart (U : DeclUsage → Nat) (buff : Nat → Nat) (f : List Nat) (k : Nat) :
    Option ((Nat → Nat) × List Nat) :=
  match readGeometry U f with
  | none => none
  | some (g, f1) =>
    match skipExtra g.version f1 with
    | none => none
    | some f2 => subsetStart k 0 buff f2

/-- The array `buff` after `GLReadString` has stored the text `s` from index `ind` on and
closed it with a terminator. -/
def storeString : (Nat → Nat) → Nat → List Nat → (Nat → Nat)
  | buff, ind, [] => Function.update buff ind 0
  | buff, ind, c :: cs => storeString (Function.update buff ind (c % 256)) (ind + 1) cs

/-- What `GLLoadMeshFromQM` has built from a header with no element, no vertex, no index
and one subset, of version 2 and index stride 2. -/
def qmGeometryEmpty : QMGeometry :=
  { version := 2, numindices := 0, istride := 2, numsubsets := 1, numvertices := 0,
    vstride := 0, decl := [sentinelElement],
    mesh := { numvertices := 0, numindices := 0, stride := 0, subsettable := [],
              layout := [] },
    vertexdata := [], indexdata := [] }

/-- The four bytes of a 32-bit value in a file. -/
def le32 (n : Nat) : List Nat :=
  [n % 256, n / 256 % 256, n / 65536 % 256, n / 16777216 % 256]

/-- The eight header fields and the element count of a QM file. -/
def qmHeader (version numindices istride numsubsets numvertices numelems : Nat) : List Nat :=
  le32 (version * 65536) ++ le32 numindices ++ le32 istride ++ le32 numsubsets
    ++ le32 numvertices ++ le32 0 ++ le32 0 ++ le32 0 ++ le32 numelems

/-- A subset record without material block: face start 6, vertex start 5, vertex count 7,
face count 9, a reserved field, six floats, the text fields `a` and `x,`, the fallback
texture field `,,` and seven empty text fields. -/
def plainSubsetRecord : List Nat :=
  le32 6 ++ le32 5 ++ le32 7 ++ le32 9 ++ le32 0 ++ List.replicate 24 0
    ++ [97, 10] ++ [120, 44, 10] ++ [44, 44, 10] ++ List.replicate 7 10

/-- A QM file of version 2 with no vertex, no index, one subset and an extra block count of
2^29 = 536870912, directly followed by one subset record. -/
def qmFileWrap : List Nat :=
  qmHeader 2 0 2 1 0 0 ++ le32 536870912 ++ plainSubsetRecord

/-- A QM file of version 2 with no vertex, no index, one subset and an extra block of
`n` records of eight bytes, followed by one subset record. -/
def qmFileExtra (n : Nat) : List Nat :=
  qmHeader 2 0 2 1 0 0 ++ le32 n ++ List.replicate (8 * n) 0xEE ++ plainSubsetRecord

/-- The minimal QM file: version 0, one float3 position element, three vertices, one
triangle with 16-bit indices, and one subset whose second text field is `,,`. -/
def qmFileMinimal : List Nat :=
  qmHeader 0 3 2 1 3 1 ++ [0, 0, 0, 2, 0] ++ List.replicate 36 0 ++ [0, 0, 1, 0, 2, 0]
    ++ le32 0 ++ le32 0 ++ le32 3 ++ le32 3 ++ le32 0 ++ List.replicate 24 0
    ++ [109, 101, 115, 104, 10] ++ [44, 44, 10] ++ [44, 44, 10] ++ List.replicate 7 10

/-- What `GLLoadMeshFromQM` hands back for `qmFileMinimal`. -/
def qmMinimalResult : QMResult :=
  { mesh := { numvertices := 3, numindices := 3, stride := 12,
              subsettable := [⟨0, 0, 1, 0, 3⟩],
              layout := [.EnableVertexAttribArray 0,
                         .VertexAttribPointer 0 3 GL_FLOAT false 12 0] },
    materials := [defaultMaterial], nummaterials := 1,
    vertexdata := List.replicate 36 0, indexdata := [0, 0, 1, 0, 2, 0] }

/-- What `GLLoadMeshFromQM` has read and built from `qmFileMinimal` when the index
payload has been read. -/
def qmMinimalGeometry : QMGeometry :=
  { version := 0, numindices := 3, istride := 2, numsubsets := 1, numvertices := 3,
    vstride := 12,
    decl := [⟨0, 0, GLDECLTYPE_FLOAT3, 0, 0⟩, sentinelElement],
    mesh := { numvertices := 3, numindices := 3, stride := 12, subsettable := [],
              layout := [.EnableVertexAttribArray 0,
                         .VertexAttribPointer 0 3 GL_FLOAT false 12 0] },
    vertexdata := List.replicate 36 0, indexdata := [0, 0, 1, 0, 2, 0] }

/-- The minimal QM file with 32-bit indices: the header gives index count 3, index stride
4 and vertex count 3, and the index payload has the 12 bytes that go with them. -/
def qmFileIndex32 : List Nat :=
  qmHeader 0 3 4 1 3 1 ++ [0, 0, 0, 2, 0] ++ List.replicate 36 0
    ++ [0, 0, 0, 0, 1, 0, 0, 0, 2, 0, 0, 0] ++ plainSubsetRecord

/-- A QM file whose index count is not a multiple of 3: the header gives index count 4,
index stride 2 and vertex count 3, and the index payload has 8 bytes. -/
def qmFileIndex4 : List Nat :=
  qmHeader 0 4 2 1 3 1 ++ [0, 0, 0, 2, 0] ++ List.replicate 36 0
    ++ [0, 0, 1, 0, 2, 0, 0, 0] ++ plainSubsetRecord

/-- A QM file whose header gives 2^30 = 1073741824 vertices for a layout of one float1
element (4 bytes a vertex), no index, and four bytes of vertex payload before one subset
record. -/
def qmFileVertexWrap : List Nat :=
  qmHeader 0 0 2 1 1073741824 1 ++ [0, 0, 0, 0, 0] ++ List.replicate 4 0 ++ plainSubsetRecord

/-- Number of index bytes `GLLoadMeshFromQM` reads for a header: the product
`istride * numindices` that `fread(data, istride, numindices, infile)` forms. -/
def indexBytesRead (h : QMHeader) : Nat :=
  h.istride * h.numindices

/-- Number of bytes of the index buffer `GLLoadMeshFromQM` locks for a header and a
declaration: `LockIndexBuffer` on the mesh made by `GLCreateMesh(numindices / 3,
numvertices, 0, decl, mesh)`. -/
def indexBytesLocked (U : DeclUsage → Nat) (h : QMHeader) (decl : List OpenGLVertexElement) :
    Nat :=
  LockIndexBuffer (GLCreateMesh U (h.numindices / 3) h.numvertices 0 decl)

/-! ## Sequences of calls on an effect -/

/-- State of the effect after `AddUniform`, whether it returned or threw.  A call
without a defined result reaches no state: the effect is then given as it was before
the call. -/
def afterAddUniform (namecap : Nat) (s : OpenGLEffect) (name : String)
    (location count type : Nat) : OpenGLEffect :=
  match AddUniform namecap s name location count type with
  | some (.ok s1) => s1
  | some (.error _) => s
  | none => s

/-- A call of `AddUniform` or of `QueryUniforms`, with its arguments (for
`QueryUniforms`: what the driver reports). -/
inductive EffectOp where
  | add (name : String) (location count type : Nat)
  | query (active : List ActiveUniform)

/-- State of the effect after one call, whether it returned or threw; `none` when the
call has no defined result. -/
def stepOp (namecap : Nat) (s : OpenGLEffect) : EffectOp → Option OpenGLEffect
  | .add name location count type =>
    match AddUniform namecap s name location count type with
    | some (.ok s1) => some s1
    | some (.error _) => some s
    | none => none
  | .query active =>
    match QueryUniforms namecap s active with
    | some r => some r.1
    | none => none

/-- State of the effect after a sequence of calls.  The sequence ends at the first call
without a defined result, which reaches no state: the effect is then the one the calls
before it have built. -/
def runOps (namecap : Nat) (s : OpenGLEffect) : List EffectOp → OpenGLEffect
  | [] => s
  | op :: rest =>
    match stepOp namecap s op with
    | some s1 => runOps namecap s1 rest
    | none => s

/-- Whether every call of a sequence has a defined result. -/
def runsThrough (namecap : Nat) (s : OpenGLEffect) : List EffectOp → Bool
  | [] => true
  | op :: rest =>
    match stepOp namecap s op with
    | some s1 => runsThrough namecap s1 rest
    | none => false

/-- Registers claimed by one call of `AddUniform`: none when it throws. -/
def addClaimed (namecap : Nat) (name : String) (count type : Nat) : Nat :=
  if name.length ≥ namecap then 0
  else if isFloatFamily type || isIntFamily type then effectiveCount count type
  else 0

/-- Whether `AddUniform` throws for this name and type. -/
def addThrows (namecap : Nat) (name : String) (type : Nat) : Bool :=
  decide (name.length ≥ namecap) || !(isFloatFamily type || isIntFamily type)

/-- Registers claimed by the loop of `QueryUniforms`, which ends at the first throw. -/
def queryClaimed (namecap : Nat) : List ActiveUniform → Nat
  | [] => 0
  | a :: rest =>
    if a.loc = -1 then queryClaimed namecap rest
    else if addThrows namecap (stripSubscript a.name) a.type then 0
    else effectiveCount a.size a.type + queryClaimed namecap rest

/-- Registers claimed by one call on an effect whose program handle is `program`. -/
def opClaimed (namecap program : Nat) : EffectOp → Nat
  | .add name _ count type => addClaimed namecap name count type
  | .query active => if program = 0 then 0 else queryClaimed namecap active

/-- Registers claimed by a sequence of calls. -/
def totalClaimed (namecap program : Nat) (ops : List EffectOp) : Nat :=
  (ops.map (opClaimed namecap program)).sum

/-- Both uniforms live in the float bank, or both in the integer bank. -/
def sameBank (a b : Uniform) : Prop :=
  (isFloatFamily a.Type_ = true ∧ isFloatFamily b.Type_ = true) ∨
  (isIntFamily a.Type_ = true ∧ isIntFamily b.Type_ = true)

/-- The register ranges `[StartRegister, StartRegister + RegisterCount)` of two uniforms do
not meet. -/
def disjointRanges (a b : Uniform) : Prop :=
  a.StartRegister + a.RegisterCount ≤ b.StartRegister ∨
  b.StartRegister + b.RegisterCount ≤ a.StartRegister

instance (a b : Uniform) : Decidable (sameBank a b) := by
  unfold sameBank; exact inferInstance

instance (a b : Uniform) : Decidable (disjointRanges a b) := by
  unfold disjointRanges; exact inferInstance

/-- The register invariant of an effect. -/
structure RegistersOk (s : OpenGLEffect) : Prop where
  disjoint : s.uniforms.Pairwise (fun a b => sameBank a b → disjointRanges a b)
  floatRange : ∀ uni ∈ s.uniforms, isFloatFamily uni.Type_ = true →
    uni.StartRegister + uni.RegisterCount ≤ s.floatsize
  intRange : ∀ uni ∈ s.uniforms, isIntFamily uni.Type_ = true →
    uni.StartRegister + uni.RegisterCount ≤ s.intsize
  floatCap : s.floatsize ≤ s.floatcap
  intCap : s.intsize ≤ s.intcap
  mat4 : ∀ uni ∈ s.uniforms, uni.Type_ = GL_FLOAT_MAT4 → uni.RegisterCount = 4

/-- A name of exactly `namecap` characters: the shortest that, with its terminator, does not
fit a buffer of `namecap` bytes. -/
def overlongName (namecap : Nat) : String :=
  String.mk (List.replicate namecap 'a')

/-- The registry with every dirty flag cleared. -/
def clearChanged (us : List Uniform) : List Uniform :=
  us.map (fun uni => { uni with Changed := false })

/-- The effect as `GLCreateEffectFromFile` sets it up before any uniform is added:
`new OpenGLEffect()` followed by the assignment of `program`.  With `program = 0` it is
the effect left by the constructor alone. -/
def newEffect (fmem imem : Nat → Nat) (program : Nat) : OpenGLEffect :=
  { OpenGLEffect.new fmem imem with program := program }

/-- A sequence of calls: two explicit registrations, one of a type `AddUniform` rejects,
and an introspection of a program with an array, an unlocated uniform and a sampler. -/
def sampleOps : List EffectOp :=
  [ .add "color" 0 1 GL_FLOAT_VEC4,
    .add "world" 1 9 GL_FLOAT_MAT4,
    .add "flag" 2 1 0x8B56,
    .query [ ⟨"lights[0]", 3, GL_FLOAT_VEC4, 0⟩, ⟨"unused", 1, GL_FLOAT, -1⟩,
             ⟨"tex", 1, GL_SAMPLER_2D, 1⟩, ⟨"view", 1, GL_FLOAT_MAT4, 2⟩ ] ]

/-- One assignment of distinct values to the enumerators of `OpenGLDeclUsage`, for the
places where a concrete one is needed. -/
def sampleUsage : DeclUsage → Nat
  | .POSITION => 0
  | .BLENDWEIGHT => 1
  | .BLENDINDICES => 2
  | .NORMAL => 3
  | .PSIZE => 4
  | .TEXCOORD => 5
  | .TANGENT => 6
  | .BINORMAL => 7
  | .TESSFACTOR => 8
  | .POSITIONT => 9
  | .COLOR => 10

/-- The layout "float3 position, float3 normal, packed color", with the offsets 0, 12 and
24 written in the array by the caller. -/
def layoutPosNormalColor (U : DeclUsage → Nat) : List OpenGLVertexElement :=
  [ { Stream := 0, Offset := 0, Type_ := GLDECLTYPE_FLOAT3, Usage := U .POSITION,
      UsageIndex := 0 },
    { Stream := 0, Offset := 12, Type_ := GLDECLTYPE_FLOAT3, Usage := U .NORMAL,
      UsageIndex := 0 },
    { Stream := 0, Offset := 24, Type_ := GLDECLTYPE_GLCOLOR, Usage := U .COLOR,
      UsageIndex := 0 } ]

/-- The offsets passed to `glVertexAttribPointer` among a list of calls. -/
def pointerArgs : List MeshCall → List Nat
  | [] => []
  | .VertexAttribPointer _ _ _ _ _ pointer :: rest => pointer :: pointerArgs rest
  | _ :: rest => pointerArgs rest

/-- The registry with the dirty flag of the uniform called `name` set. -/
def flagChanged (us : List Uniform) (name : String) : List Uniform :=
  us.map (fun uni => if uni.Name = name then { uni with Changed := true } else uni)

/-- The name invariant of a registry: no two entries share a name, every name fits the
name buffer, and every entry is of a type `AddUniform` places in a bank. -/
structure RegistryOk (namecap : Nat) (us : List Uniform) : Prop where
  unique : us.Pairwise (fun a b => a.Name ≠ b.Name)
  fits : ∀ uni ∈ us, uni.Name.length < namecap
  family : ∀ uni ∈ us, isFloatFamily uni.Type_ = true ∨ isIntFamily uni.Type_ = true

/-- The invariants of an effect taken together: the register invariant, the name
invariant, and no bank capacity more than 8 registers above the bank size. -/
structure EffectOk (namecap : Nat) (s : OpenGLEffect) : Prop where
  registers : RegistersOk s
  registry : RegistryOk namecap s.uniforms
  floatGrowth : s.floatcap ≤ s.floatsize + 8
  intGrowth : s.intcap ≤ s.intsize + 8

/-- The matrix uniform `view` as `sampleOps` leaves it registered: registers 8 to 11 of
the float bank. -/
def sampleView : Uniform :=
  ⟨"view", 8, 4, 2, GL_FLOAT_MAT4, true⟩

/-- Two registrations on a new effect: a float vector `f` and an integer `i`, each with
one register, number 0 of its bank. -/
def effectFloatAndInt : OpenGLEffect :=
  afterAddUniform 32
    (afterAddUniform 32 (newEffect (fun _ => 0) (fun _ => 0) 0) "f" 0 1 GL_FLOAT_VEC4)
    "i" 1 1 GL_INT

/-- One registration on a new effect: an integer `i` with one register.  No float
uniform was added, so the float bank is the null pointer of the constructor. -/
def effectIntOnly : OpenGLEffect :=
  afterAddUniform 32 (newEffect (fun _ => 0) (fun _ => 0) 0) "i" 1 1 GL_INT

/-! ## Properties of the effect -/

theorem effectiveCount_mat4 (count : Nat) : effectiveCount count GL_FLOAT_MAT4 = 4 := by
  simp [effectiveCount]

theorem effectiveCount_other (count type : Nat) (h : type ≠ GL_FLOAT_MAT4) :
    effectiveCount count type = count := by
  simp [effectiveCount, h]

theorem effectiveCount_idem (count type : Nat) :
    effectiveCount (effectiveCount count type) type = effectiveCount count type := by
  unfold effectiveCount; split <;> simp_all

theorem float_not_int (type : Nat) (h : isFloatFamily type = true) :
    isIntFamily type = false := by
  simp only [isFloatFamily, isIntFamily, GL_FLOAT, GL_FLOAT_VEC2, GL_FLOAT_VEC4, GL_FLOAT_MAT4,
    GL_INT, GL_INT_VEC2, GL_INT_VEC4, GL_SAMPLER_2D, GL_IMAGE_2D, Bool.or_eq_true,
    Bool.and_eq_true, beq_iff_eq, decide_eq_true_eq, Bool.or_eq_false_iff,
    Bool.and_eq_false_iff, beq_eq_false_iff_ne, decide_eq_false_iff_not] at h ⊢
  omega

theorem regWords_small (x : Nat) (h : x < 1073741824) : regWords x = 4 * x := by
  unfold regWords
  rw [Nat.mod_eq_of_lt (by simp only [U32]; omega)]
  omega

/-- A write of whole registers that ends at or before the capacity stays inside the block
of the bank, as long as the capacity is below 2^30 registers. -/
theorem insideBlock_regs (start count cap : Nat) (h : start + count ≤ cap)
    (hcap : cap < 1073741824) :
    insideBlock (regWords start) (regWords count) (regWords cap) = true := by
  rw [regWords_small start (by omega), regWords_small count (by omega),
    regWords_small cap hcap]
  simp only [insideBlock, Bool.or_eq_true, beq_iff_eq, decide_eq_true_eq]
  omega

/-- The first word of a register below the capacity is inside the block of the bank, as
long as the capacity is below 2^30 registers. -/
theorem insideBlock_first (start cap : Nat) (h : start < cap) (hcap : cap < 1073741824) :
    insideBlock (regWords start) 1 (regWords cap) = true := by
  rw [regWords_small start (by omega), regWords_small cap hcap]
  simp only [insideBlock, Bool.or_eq_true, beq_iff_eq, decide_eq_true_eq]
  omega

theorem grownCap_small (size count cap : Nat) (hcap : cap < 1073741824)
    (hfit : size + count < 1073741824) (h8 : size + 8 < 1073741824) :
    grownCap size count cap < 1073741824 ∧ size + count ≤ grownCap size count cap := by
  unfold grownCap
  rw [Nat.mod_eq_of_lt (by simp only [U32]; omega : size + count < U32),
    Nat.mod_eq_of_lt (by simp only [U32]; omega : size + 8 < U32)]
  split <;> omega

theorem AddUniform_float (namecap : Nat) (s : OpenGLEffect) (name : String)
    (location count type : Nat) (hname : name.length < namecap)
    (hty : isFloatFamily type = true) :
    AddUniform namecap s name location count type =
      if insideBlock (regWords s.floatsize) (regWords (effectiveCount count type))
          (regWords (grownCap s.floatsize (effectiveCount count type) s.floatcap)) then
        some (.ok
          { s with
            floatcap := grownCap s.floatsize (effectiveCount count type) s.floatcap
            floatvalues := memset0 s.floatvalues (regWords s.floatsize)
              (regWords (effectiveCount count type))
            floatsize := (s.floatsize + effectiveCount count type) % U32
            uniforms := uniforms_insert s.uniforms
              (newUniform name location (effectiveCount count type) type s.floatsize) })
      else none := by
  simp [AddUniform, Nat.not_le.mpr hname, hty, newUniform]

theorem AddUniform_int (namecap : Nat) (s : OpenGLEffect) (name : String)
    (location count type : Nat) (hname : name.length < namecap)
    (hnf : isFloatFamily type = false) (hty : isIntFamily type = true) :
    AddUniform namecap s name location count type =
      if insideBlock (regWords s.intsize) (regWords (effectiveCount count type))
          (regWords (grownCap s.intsize (effectiveCount count type) s.intcap)) then
        some (.ok
          { s with
            intcap := grownCap s.intsize (effectiveCount count type) s.intcap
            intvalues := memset0 s.intvalues (regWords s.intsize)
              (regWords (effectiveCount count type))
            intsize := (s.intsize + effectiveCount count type) % U32
            uniforms := uniforms_insert s.uniforms
              (newUniform name location (effectiveCount count type) type s.intsize) })
      else none := by
  simp [AddUniform, Nat.not_le.mpr hname, hty, hnf, newUniform]

/-- A float-family call returns when capacity, size plus count and size plus 8 are all
below 2^30 registers. -/
theorem AddUniform_float_returns (namecap : Nat) (s : OpenGLEffect) (name : String)
    (location count type : Nat) (hname : name.length < namecap)
    (hty : isFloatFamily type = true) (hcap : s.floatcap < 1073741824)
    (hfit : s.floatsize + effectiveCount count type < 1073741824)
    (h8 : s.floatsize + 8 < 1073741824) :
    AddUniform namecap s name location count type = some (.ok
      { s with
        floatcap := grownCap s.floatsize (effectiveCount count type) s.floatcap
        floatvalues := memset0 s.floatvalues (regWords s.floatsize)
          (regWords (effectiveCount count type))
        floatsize := (s.floatsize + effectiveCount count type) % U32
        uniforms := uniforms_insert s.uniforms
          (newUniform name location (effectiveCount count type) type s.floatsize) }) := by
  have hg := grownCap_small s.floatsize (effectiveCount count type) s.floatcap hcap hfit h8
  rw [AddUniform_float namecap s name location count type hname hty,
    if_pos (insideBlock_regs _ _ _ hg.2 hg.1)]

/-- An integer-family call returns when capacity, size plus count and size plus 8 are all
below 2^30 registers. -/
theorem AddUniform_int_returns (namecap : Nat) (s : OpenGLEffect) (name : String)
    (location count type : Nat) (hname : name.length < namecap)
    (hnf : isFloatFamily type = false) (hty : isIntFamily type = true)
    (hcap : s.intcap < 1073741824)
    (hfit : s.intsize + effectiveCount count type < 1073741824)
    (h8 : s.intsize + 8 < 1073741824) :
    AddUniform namecap s name location count type = some (.ok
      { s with
        intcap := grownCap s.intsize (effectiveCount count type) s.intcap
        intvalues := memset0 s.intvalues (regWords s.intsize)
          (regWords (effectiveCount count type))
        intsize := (s.intsize + effectiveCount count type) % U32
        uniforms := uniforms_insert s.uniforms
          (newUniform name location (effectiveCount count type) type s.intsize) }) := by
  have hg := grownCap_small s.intsize (effectiveCount count type) s.intcap hcap hfit h8
  rw [AddUniform_int namecap s name location count type hname hnf hty,
    if_pos (insideBlock_regs _ _ _ hg.2 hg.1)]

theorem AddUniform_throws (namecap : Nat) (s : OpenGLEffect) (name : String)
    (location count type : Nat) (h : addThrows namecap name type = true) :
    AddUniform namecap s name location count type = some (.error 1) := by
  unfold AddUniform
  simp only [addThrows, Bool.or_eq_true, decide_eq_true_eq, Bool.not_eq_true',
    Bool.or_eq_false_iff] at h
  rcases h with h | ⟨h1, h2⟩
  · simp [h]
  · by_cases hn : name.length ≥ namecap <;> simp [hn, h1, h2]

theorem find_orderedPlace (uni : Uniform) (us : List Uniform)
    (h : ∀ v ∈ us, v.Name ≠ uni.Name) :
    (orderedPlace uni us).find? (fun v => v.Name = uni.Name) = some uni := by
  induction us with
  | nil => simp [orderedPlace]
  | cons v vs ih =>
    have hv : v.Name ≠ uni.Name := h v (List.mem_cons_self _ _)
    have hvs : ∀ w ∈ vs, w.Name ≠ uni.Name := fun w hw => h w (List.mem_cons_of_mem _ hw)
    unfold orderedPlace
    split
    · simp
    · simp [hv, ih hvs]

theorem mem_orderedPlace (uni w : Uniform) (us : List Uniform) :
    w ∈ orderedPlace uni us ↔ w = uni ∨ w ∈ us := by
  induction us with
  | nil => simp [orderedPlace]
  | cons v vs ih =>
    unfold orderedPlace
    split
    · simp
    · simp only [List.mem_cons, ih]; tauto

theorem uniforms_insert_fresh (uni : Uniform) (us : List Uniform)
    (h : ∀ v ∈ us, v.Name ≠ uni.Name) : uniforms_insert us uni = orderedPlace uni us := by
  unfold uniforms_insert
  have : us.any (fun v => decide (v.Name = uni.Name)) = false := by
    simp only [List.any_eq_false, decide_eq_true_eq]
    exact h
  simp [this]

/-- C1: for a float-family type and a name that fits the name buffer, as long as the
capacity of the float bank, its size plus the register count and its size plus 8 all stay
below 2^30, `AddUniform` returns; the record it hands to the registry has `StartRegister`
equal to the float bank size before the call and `RegisterCount` equal to the passed
count, or 4 for `GL_FLOAT_MAT4`; that record is the entry found under the name when the
name was not registered before; the float bank size grows by `RegisterCount` and the
integer bank size is unchanged. -/
theorem C1_AddUniform_float_bank (namecap : Nat) (s : OpenGLEffect) (name : String)
    (location count type : Nat)
    (hname : name.length < namecap) (hty : isFloatFamily type = true)
    (hcap : s.floatcap < 1073741824)
    (hfit : s.floatsize + effectiveCount count type < 1073741824)
    (h8 : s.floatsize + 8 < 1073741824) :
    ∃ s1 uni, AddUniform namecap s name location count type = some (.ok s1) ∧
      s1.uniforms = uniforms_insert s.uniforms uni ∧
      uni.Name = name ∧
      uni.StartRegister = s.floatsize ∧
      uni.RegisterCount = (if type = GL_FLOAT_MAT4 then 4 else count) ∧
      ((∀ v ∈ s.uniforms, v.Name ≠ name) →
        s1.uniforms.find? (fun v => v.Name = name) = some uni) ∧
      s1.floatsize = s.floatsize + uni.RegisterCount ∧
      s1.intsize = s.intsize := by
  refine ⟨_, newUniform name location (effectiveCount count type) type s.floatsize,
    AddUniform_float_returns namecap s name location count type hname hty hcap hfit h8,
    rfl, rfl, rfl, rfl, ?_, ?_, rfl⟩
  · intro hfresh
    have h2 : ∀ v ∈ s.uniforms,
        v.Name ≠ (newUniform name location (effectiveCount count type) type s.floatsize).Name :=
      hfresh
    show (uniforms_insert s.uniforms _).find? _ = _
    rw [uniforms_insert_fresh _ _ h2]
    exact find_orderedPlace _ _ h2
  · show (s.floatsize + effectiveCount count type) % U32 = _
    rw [Nat.mod_eq_of_lt (by simp only [U32]; omega)]
    rfl

/-- Witness of C1: a `GL_FLOAT_MAT4` uniform passed count 7, added to a new effect. -/
theorem C1_AddUniform_float_bank_witness :
    ∃ s1 uni, AddUniform 32 (OpenGLEffect.new (fun _ => 0) (fun _ => 0)) "world" 5 7
        GL_FLOAT_MAT4 = some (.ok s1) ∧
      s1.uniforms = uniforms_insert [] uni ∧
      uni.Name = "world" ∧
      uni.StartRegister = 0 ∧
      uni.RegisterCount = (if GL_FLOAT_MAT4 = GL_FLOAT_MAT4 then 4 else 7) ∧
      ((∀ v ∈ ([] : List Uniform), v.Name ≠ "world") →
        s1.uniforms.find? (fun v => v.Name = "world") = some uni) ∧
      s1.floatsize = 0 + uni.RegisterCount ∧
      s1.intsize = 0 :=
  C1_AddUniform_float_bank 32 (OpenGLEffect.new (fun _ => 0) (fun _ => 0)) "world" 5 7
    GL_FLOAT_MAT4 (by decide) (by decide) (by decide) (by decide) (by decide)

/-- Counterexample to C1 as stated: `AddUniform("a", 0, 2147483648, GL_FLOAT)` on a new
effect leaves the float bank size at 2147483648; `AddUniform("b", 1, 2147483648,
GL_FLOAT)` then returns, registers `b` with `StartRegister` and `RegisterCount`
2147483648, and leaves the float bank size at 0, not at 2147483648 + 2147483648.  (In
both calls the word count `RegisterCount * 4` of the `memset` is 0.)  Below 2^32 the
call need not return at all: after `AddUniform("a", 0, 1, GL_FLOAT)` on a new effect,
`AddUniform("b", 1, 1073741823, GL_FLOAT)` asks `realloc` for `1073741824 * 4` words,
which is 0 as a 32-bit product, and clears 4294967292 words from word 4 on. -/
theorem C1_counterexample :
    (∃ s1 s2, AddUniform 32 (OpenGLEffect.new (fun _ => 0) (fun _ => 0)) "a" 0 2147483648
        GL_FLOAT = some (.ok s1) ∧
      AddUniform 32 s1 "b" 1 2147483648 GL_FLOAT = some (.ok s2) ∧
      s1.floatsize = 2147483648 ∧
      s2.uniforms.find? (fun v => v.Name = "b")
        = some ⟨"b", 2147483648, 2147483648, 1, GL_FLOAT, true⟩ ∧
      regWords 2147483648 = 0 ∧
      s2.floatsize = 0 ∧
      s2.floatsize ≠ s1.floatsize + 2147483648) ∧
    (∃ s1, AddUniform 32 (OpenGLEffect.new (fun _ => 0) (fun _ => 0)) "a" 0 1 GL_FLOAT
        = some (.ok s1) ∧
      (s1.floatsize, s1.floatcap) = (1, 8) ∧
      regWords (grownCap 1 1073741823 8) = 0 ∧
      regWords 1073741823 = 4294967292 ∧
      AddUniform 32 s1 "b" 1 1073741823 GL_FLOAT = none) := by
  refine ⟨⟨_, _, rfl, rfl, ?_, ?_, ?_, ?_, ?_⟩, ⟨_, rfl, ?_, ?_, ?_, ?_⟩⟩
  · decide
  · decide
  · decide
  · decide
  · decide
  · decide
  · decide
  · decide
  · rfl

/-- C2: when an `AddUniform` call overflows the capacity of its bank (bank size + count >
capacity, both bank size + count and bank size + 8 below 2^30), the call returns and the
capacity after it is the larger of bank size + count and bank size + 8: at least the
bank size before the call plus 8 registers, and above the capacity before the call. -/
theorem C2_capacity_growth (namecap : Nat) (s : OpenGLEffect) (name : String)
    (location count type : Nat) (hname : name.length < namecap) :
    (isFloatFamily type = true →
      s.floatsize + effectiveCount count type > s.floatcap →
      s.floatsize + effectiveCount count type < 1073741824 →
      s.floatsize + 8 < 1073741824 →
      ∃ s1, AddUniform namecap s name location count type = some (.ok s1) ∧
        s1.floatcap = max (s.floatsize + effectiveCount count type) (s.floatsize + 8) ∧
        s1.floatcap ≥ s.floatsize + 8 ∧ s1.floatcap > s.floatcap) ∧
    (isIntFamily type = true →
      s.intsize + effectiveCount count type > s.intcap →
      s.intsize + effectiveCount count type < 1073741824 →
      s.intsize + 8 < 1073741824 →
      ∃ s1, AddUniform namecap s name location count type = some (.ok s1) ∧
        s1.intcap = max (s.intsize + effectiveCount count type) (s.intsize + 8) ∧
        s1.intcap ≥ s.intsize + 8 ∧ s1.intcap > s.intcap) := by
  constructor
  · intro hty hover hsum h8
    refine ⟨_, AddUniform_float_returns namecap s name location count type hname hty
      (by omega) hsum h8, ?_⟩
    have hcap : grownCap s.floatsize (effectiveCount count type) s.floatcap
        = max (s.floatsize + effectiveCount count type) (s.floatsize + 8) := by
      unfold grownCap
      rw [Nat.mod_eq_of_lt (by simp only [U32]; omega),
        Nat.mod_eq_of_lt (by simp only [U32]; omega), if_pos hover]
    show grownCap _ _ _ = _ ∧ grownCap _ _ _ ≥ _ ∧ grownCap _ _ _ > _
    rw [hcap]
    omega
  · intro hty hover hsum h8
    have hnf : isFloatFamily type = false := by
      cases hf : isFloatFamily type
      · rfl
      · rw [float_not_int type hf] at hty; cases hty
    refine ⟨_, AddUniform_int_returns namecap s name location count type hname hnf hty
      (by omega) hsum h8, ?_⟩
    have hcap : grownCap s.intsize (effectiveCount count type) s.intcap
        = max (s.intsize + effectiveCount count type) (s.intsize + 8) := by
      unfold grownCap
      rw [Nat.mod_eq_of_lt (by simp only [U32]; omega),
        Nat.mod_eq_of_lt (by simp only [U32]; omega), if_pos hover]
    show grownCap _ _ _ = _ ∧ grownCap _ _ _ ≥ _ ∧ grownCap _ _ _ > _
    rw [hcap]
    omega

/-- Witness of C2: a float uniform of 8 registers added to a bank of size 1 and
capacity 8. -/
theorem C2_capacity_growth_witness :
    ∃ s1, AddUniform 32 { OpenGLEffect.new (fun _ => 0) (fun _ => 0) with
        floatcap := 8, floatsize := 1 } "b" 1 8 GL_FLOAT = some (.ok s1) ∧
      s1.floatcap = max (1 + effectiveCount 8 GL_FLOAT) (1 + 8) ∧
      s1.floatcap ≥ 1 + 8 ∧ s1.floatcap > 8 :=
  (C2_capacity_growth 32 { OpenGLEffect.new (fun _ => 0) (fun _ => 0) with
      floatcap := 8, floatsize := 1 } "b" 1 8 GL_FLOAT (by decide)).1
    (by decide) (by decide) (by decide) (by decide)

/-- Counterexample to C2 as stated: `AddUniform("a", 0, 1, GL_FLOAT)` on a new effect leaves
the float bank with size 1 and capacity 8; `AddUniform("b", 1, 8, GL_FLOAT)` overflows it
(1 + 8 > 8) and leaves the capacity at 9, less than 8 + 8. -/
theorem C2_counterexample :
    ∃ s1 s2, AddUniform 32 (OpenGLEffect.new (fun _ => 0) (fun _ => 0)) "a" 0 1 GL_FLOAT
        = some (.ok s1) ∧
      AddUniform 32 s1 "b" 1 8 GL_FLOAT = some (.ok s2) ∧
      s1.floatsize = 1 ∧ s1.floatcap = 8 ∧ s1.floatsize + 8 > s1.floatcap ∧
      s2.floatcap = 9 ∧ ¬ (s2.floatcap ≥ s1.floatcap + 8) := by
  refine ⟨_, _, rfl, rfl, ?_, ?_, ?_, ?_, ?_⟩ <;> decide

theorem CommitChanges_loop_fst (s : OpenGLEffect) (us : List Uniform) :
    (CommitChanges_loop s us).1 = clearChanged us := by
  induction us with
  | nil => rfl
  | cons uni rest ih =>
    unfold CommitChanges_loop
    cases hc : uni.Changed
    · simp only [Bool.not_false, if_true, clearChanged, List.map_cons]
      rw [ih]
      cases uni
      simp_all [clearChanged]
    · simp only [Bool.not_true, Bool.false_eq_true, if_false, clearChanged, List.map_cons]
      rw [ih]
      rfl

theorem CommitChanges_loop_snd (s : OpenGLEffect) (us : List Uniform) :
    ∀ call ∈ (CommitChanges_loop s us).2,
      ∃ uni ∈ us, uni.Changed = true ∧ uploadCall s uni = some call := by
  induction us with
  | nil => intro call h; simp [CommitChanges_loop] at h
  | cons uni rest ih =>
    intro call h
    unfold CommitChanges_loop at h
    cases hc : uni.Changed
    · simp only [hc, Bool.not_false, if_true] at h
      obtain ⟨v, hv, h1, h2⟩ := ih call h
      exact ⟨v, List.mem_cons_of_mem _ hv, h1, h2⟩
    · simp only [hc, Bool.not_true, Bool.false_eq_true, if_false, List.mem_append] at h
      rcases h with h | h
      · refine ⟨uni, List.mem_cons_self _ _, hc, ?_⟩
        cases hu : uploadCall s uni
        · simp [hu] at h
        · simp [hu] at h; rw [h]
      · obtain ⟨v, hv, h1, h2⟩ := ih call h
        exact ⟨v, List.mem_cons_of_mem _ hv, h1, h2⟩

theorem CommitChanges_loop_clean (s : OpenGLEffect) (us : List Uniform)
    (h : ∀ uni ∈ us, uni.Changed = false) : CommitChanges_loop s us = (us, []) := by
  induction us with
  | nil => rfl
  | cons uni rest ih =>
    have h1 : uni.Changed = false := h uni (List.mem_cons_self _ _)
    have h2 := ih (fun v hv => h v (List.mem_cons_of_mem _ hv))
    unfold CommitChanges_loop
    simp [h1, h2]

theorem clearChanged_clean (us : List Uniform) : ∀ uni ∈ clearChanged us, uni.Changed = false := by
  intro uni h
  simp only [clearChanged, List.mem_map] at h
  obtain ⟨v, _, hv⟩ := h
  rw [← hv]

/-- C3: `CommitChanges` makes an upload call only for uniforms whose `Changed` flag is set on
entry; on exit the registry is the one on entry with every `Changed` flag cleared and the
banks, sizes and capacities are as they were; a second `CommitChanges` right after the
first makes no call and leaves the state unchanged. -/
theorem C3_CommitChanges_dirty_only (s : OpenGLEffect) :
    (∀ call ∈ (CommitChanges s).2,
      ∃ uni ∈ s.uniforms, uni.Changed = true ∧ uploadCall s uni = some call) ∧
    (CommitChanges s).1 = { s with uniforms := clearChanged s.uniforms } ∧
    (∀ uni ∈ (CommitChanges s).1.uniforms, uni.Changed = false) ∧
    CommitChanges (CommitChanges s).1 = ((CommitChanges s).1, []) := by
  have h1 : (CommitChanges s).1 = { s with uniforms := clearChanged s.uniforms } := by
    simp only [CommitChanges, CommitChanges_loop_fst]
  refine ⟨CommitChanges_loop_snd s s.uniforms, h1, ?_, ?_⟩
  · rw [h1]; exact clearChanged_clean s.uniforms
  · rw [h1]
    simp only [CommitChanges]
    rw [CommitChanges_loop_clean _ _ (clearChanged_clean s.uniforms)]

/-- C4: evaluation at the failing input.  On a new effect, `AddUniform("i", 3, 1, GL_INT)`
registers an integer uniform and `SetInt("i", 7)` stores 7 in its register and sets its
`Changed` flag; `Begin` then calls `glUseProgram` only, with no upload for location 3,
and clears the flag while the register still holds 7.  The same holds for every
integer-vector and image type: `CommitChanges` has no upload for them. -/
theorem C4_int_uniform_never_uploaded :
    (SetInt 32 (afterAddUniform 32 (OpenGLEffect.new (fun _ => 0) (fun _ => 0)) "i" 3 1 GL_INT)
        "i" 7).map
      (fun s2 => (s2.uniforms, s2.intvalues 0, (Begin s2).2, (Begin s2).1.uniforms,
        (Begin s2).1.intvalues 0))
      = some ([⟨"i", 0, 1, 3, GL_INT, true⟩], 7, [GLCall.UseProgram 0],
          [⟨"i", 0, 1, 3, GL_INT, false⟩], 7) ∧
    (∀ (s : OpenGLEffect) (uni : Uniform),
      uni.Type_ ∈ [GL_INT, GL_INT_VEC2, GL_INT_VEC3, GL_INT_VEC4, GL_IMAGE_2D] →
      uploadCall s uni = none) := by
  constructor
  · decide
  · intro s uni h
    simp only [List.mem_cons, List.mem_singleton, List.not_mem_nil, or_false] at h
    rcases h with h | h | h | h | h <;>
    simp [uploadCall, h, GL_INT, GL_INT_VEC2, GL_INT_VEC3, GL_INT_VEC4, GL_IMAGE_2D, GL_FLOAT,
      GL_FLOAT_VEC2, GL_FLOAT_VEC3, GL_FLOAT_VEC4, GL_FLOAT_MAT4, GL_SAMPLER_2D]

theorem overlongName_length (namecap : Nat) : (overlongName namecap).length = namecap := by
  simp [overlongName, String.length]

theorem uniforms_find_absent (us : List Uniform) (name : String)
    (h : ∀ uni ∈ us, uni.Name ≠ name) : ¬ uniforms_find us name < us.length := by
  unfold uniforms_find
  rw [List.findIdx_eq_length_of_false]
  · exact Nat.lt_irrefl _
  · intro uni hu
    simpa using h uni hu

/-- C5: evaluation at the failing input, and the part of the claim that holds.  A name of
`namecap` or more characters does not fit `test.Name`, and the four setters copy it there
without the length check that `AddUniform` makes: they have no defined result.  For a
name that fits and is not registered, the four setters return and leave the effect
exactly as it was. -/
theorem C5_setters_unregistered_name (namecap : Nat) (s : OpenGLEffect) (v : Nat)
    (w : Nat → Nat) :
    (SetFloat namecap s (overlongName namecap) v = none ∧
      SetInt namecap s (overlongName namecap) v = none ∧
      SetVector namecap s (overlongName namecap) w = none ∧
      SetMatrix namecap s (overlongName namecap) w = none) ∧
    (∀ name : String, name.length < namecap → (∀ uni ∈ s.uniforms, uni.Name ≠ name) →
      SetFloat namecap s name v = some s ∧ SetInt namecap s name v = some s ∧
      SetVector namecap s name w = some s ∧ SetMatrix namecap s name w = some s) := by
  constructor
  · simp [SetFloat, SetInt, SetVector, SetMatrix, overlongName_length]
  · intro name hlen habs
    have h1 := uniforms_find_absent s.uniforms name habs
    have h2 : ¬ name.length ≥ namecap := Nat.not_le.mpr hlen
    simp [SetFloat, SetInt, SetVector, SetMatrix, h1, h2]

/-! ## The register invariant -/

theorem pairwise_orderedPlace (R : Uniform → Uniform → Prop) (uni : Uniform)
    (us : List Uniform) (hR : us.Pairwise R) (h1 : ∀ v ∈ us, R uni v)
    (h2 : ∀ v ∈ us, R v uni) : (orderedPlace uni us).Pairwise R := by
  induction us with
  | nil => simp [orderedPlace]
  | cons v vs ih =>
    rw [List.pairwise_cons] at hR
    unfold orderedPlace
    split
    · exact List.pairwise_cons.mpr ⟨h1, List.pairwise_cons.mpr hR⟩
    · refine List.pairwise_cons.mpr ⟨?_, ?_⟩
      · intro x hx
        rcases (mem_orderedPlace uni x vs).mp hx with hx | hx
        · rw [hx]; exact h2 v (List.mem_cons_self _ _)
        · exact hR.1 x hx
      · exact ih hR.2 (fun w hw => h1 w (List.mem_cons_of_mem _ hw))
          (fun w hw => h2 w (List.mem_cons_of_mem _ hw))

theorem mem_uniforms_insert (uni w : Uniform) (us : List Uniform)
    (h : w ∈ uniforms_insert us uni) : w = uni ∨ w ∈ us := by
  unfold uniforms_insert at h
  split at h
  · exact Or.inr h
  · exact (mem_orderedPlace uni w us).mp h

theorem pairwise_uniforms_insert (R : Uniform → Uniform → Prop) (uni : Uniform)
    (us : List Uniform) (hR : us.Pairwise R) (h1 : ∀ v ∈ us, R uni v)
    (h2 : ∀ v ∈ us, R v uni) : (uniforms_insert us uni).Pairwise R := by
  unfold uniforms_insert
  split
  · exact hR
  · exact pairwise_orderedPlace R uni us hR h1 h2

theorem le_grownCap (size count cap : Nat) (h : size + count < U32) :
    size + count ≤ grownCap size count cap := by
  unfold grownCap
  rw [Nat.mod_eq_of_lt h]
  split
  · exact Nat.le_max_left _ _
  · omega

theorem RegistersOk_addFloat (s : OpenGLEffect) (name : String) (location count type : Nat)
    (hty : isFloatFamily type = true) (hinv : RegistersOk s)
    (hfit : s.floatsize + count < U32) (hmat : type = GL_FLOAT_MAT4 → count = 4) :
    RegistersOk { s with
      floatcap := grownCap s.floatsize count s.floatcap
      floatvalues := memset0 s.floatvalues (regWords s.floatsize) (regWords count)
      floatsize := (s.floatsize + count) % U32
      uniforms := uniforms_insert s.uniforms (newUniform name location count type s.floatsize) } := by
  have hint : isIntFamily type = false := float_not_int type hty
  constructor
  · apply pairwise_uniforms_insert _ _ _ hinv.disjoint
    · intro v hv hsame
      rcases hsame with ⟨_, hf⟩ | ⟨hi, _⟩
      · right; exact hinv.floatRange v hv hf
      · have : isIntFamily type = true := hi
        rw [hint] at this; cases this
    · intro v hv hsame
      rcases hsame with ⟨hf, _⟩ | ⟨_, hi⟩
      · left; exact hinv.floatRange v hv hf
      · have : isIntFamily type = true := hi
        rw [hint] at this; cases this
  · intro w hw hf
    show _ ≤ (s.floatsize + count) % U32
    rw [Nat.mod_eq_of_lt hfit]
    rcases mem_uniforms_insert _ w _ hw with h | h
    · rw [h]; exact Nat.le_refl _
    · have := hinv.floatRange w h hf; omega
  · intro w hw hi
    rcases mem_uniforms_insert _ w _ hw with h | h
    · rw [h] at hi
      have : isIntFamily type = true := hi
      rw [hint] at this; cases this
    · exact hinv.intRange w h hi
  · show (s.floatsize + count) % U32 ≤ grownCap s.floatsize count s.floatcap
    rw [Nat.mod_eq_of_lt hfit]
    exact le_grownCap _ _ _ hfit
  · exact hinv.intCap
  · intro w hw hm
    rcases mem_uniforms_insert _ w _ hw with h | h
    · rw [h] at hm ⊢; exact hmat hm
    · exact hinv.mat4 w h hm

theorem RegistersOk_addInt (s : OpenGLEffect) (name : String) (location count type : Nat)
    (hnf : isFloatFamily type = false) (hinv : RegistersOk s)
    (hfit : s.intsize + count < U32) (hmat : type = GL_FLOAT_MAT4 → count = 4) :
    RegistersOk { s with
      intcap := grownCap s.intsize count s.intcap
      intvalues := memset0 s.intvalues (regWords s.intsize) (regWords count)
      intsize := (s.intsize + count) % U32
      uniforms := uniforms_insert s.uniforms (newUniform name location count type s.intsize) } := by
  constructor
  · apply pairwise_uniforms_insert _ _ _ hinv.disjoint
    · intro v hv hsame
      rcases hsame with ⟨hf, _⟩ | ⟨_, hi⟩
      · have : isFloatFamily type = true := hf
        rw [hnf] at this; cases this
      · right; exact hinv.intRange v hv hi
    · intro v hv hsame
      rcases hsame with ⟨_, hf⟩ | ⟨hi, _⟩
      · have : isFloatFamily type = true := hf
        rw [hnf] at this; cases this
      · left; exact hinv.intRange v hv hi
  · intro w hw hf
    rcases mem_uniforms_insert _ w _ hw with h | h
    · rw [h] at hf
      have : isFloatFamily type = true := hf
      rw [hnf] at this; cases this
    · exact hinv.floatRange w h hf
  · intro w hw hi
    show _ ≤ (s.intsize + count) % U32
    rw [Nat.mod_eq_of_lt hfit]
    rcases mem_uniforms_insert _ w _ hw with h | h
    · rw [h]; exact Nat.le_refl _
    · have := hinv.intRange w h hi; omega
  · exact hinv.floatCap
  · show (s.intsize + count) % U32 ≤ grownCap s.intsize count s.intcap
    rw [Nat.mod_eq_of_lt hfit]
    exact le_grownCap _ _ _ hfit
  · intro w hw hm
    rcases mem_uniforms_insert _ w _ hw with h | h
    · rw [h] at hm ⊢; exact hmat hm
    · exact hinv.mat4 w h hm

theorem RegistryOk_insert (namecap : Nat) (us : List Uniform) (uni : Uniform)
    (hok : RegistryOk namecap us) (hfit : uni.Name.length < namecap)
    (hfam : isFloatFamily uni.Type_ = true ∨ isIntFamily uni.Type_ = true) :
    RegistryOk namecap (uniforms_insert us uni) := by
  constructor
  · unfold uniforms_insert
    split
    · exact hok.unique
    · rename_i hany
      have hfresh : ∀ v ∈ us, v.Name ≠ uni.Name := by
        intro v hv hname
        apply hany
        simp only [List.any_eq_true, decide_eq_true_eq]
        exact ⟨v, hv, hname⟩
      exact pairwise_orderedPlace _ uni us hok.unique
        (fun v hv h => hfresh v hv h.symm) hfresh
  · intro w hw
    rcases mem_uniforms_insert uni w us hw with h | h
    · rw [h]; exact hfit
    · exact hok.fits w h
  · intro w hw
    rcases mem_uniforms_insert uni w us hw with h | h
    · rw [h]; exact hfam
    · exact hok.family w h

theorem grownCap_le (size count cap : Nat) (hfit : size + count < U32)
    (hc : cap ≤ size + 8) : grownCap size count cap ≤ size + count + 8 := by
  unfold grownCap
  rw [Nat.mod_eq_of_lt hfit]
  have := Nat.mod_le (size + 8) U32
  split <;> omega

theorem addClaimed_of_throws (namecap : Nat) (name : String) (count type : Nat)
    (h : addThrows namecap name type = true) : addClaimed namecap name count type = 0 := by
  unfold addClaimed
  unfold addThrows at h
  by_cases hname : name.length ≥ namecap
  · simp [hname]
  · simp only [hname, decide_False, Bool.false_or, Bool.not_eq_true'] at h
    simp [hname, h]

/-- A call that does not throw has no defined result or returns, and claims its register
count. -/
theorem AddUniform_of_not_throws (namecap : Nat) (s : OpenGLEffect) (name : String)
    (location count type : Nat) (h : addThrows namecap name type = false) :
    (AddUniform namecap s name location count type = none ∨
      ∃ s1, AddUniform namecap s name location count type = some (.ok s1)) ∧
    addClaimed namecap name count type = effectiveCount count type := by
  simp only [addThrows, Bool.or_eq_false_iff, decide_eq_false_iff_not, Bool.not_eq_false',
    Bool.or_eq_true] at h
  obtain ⟨hname, hfam⟩ := h
  have hlt : name.length < namecap := Nat.not_le.mp hname
  cases hf : isFloatFamily type
  · have hi : isIntFamily type = true := by
      rcases hfam with h | h
      · rw [hf] at h; cases h
      · exact h
    refine ⟨?_, by simp [addClaimed, hname, hf, hi]⟩
    rw [AddUniform_int namecap s name location count type hlt hf hi]
    split
    · exact Or.inr ⟨_, rfl⟩
    · exact Or.inl rfl
  · refine ⟨?_, by simp [addClaimed, hname, hf]⟩
    rw [AddUniform_float namecap s name location count type hlt hf]
    split
    · exact Or.inr ⟨_, rfl⟩
    · exact Or.inl rfl

/-- An `AddUniform` call that returns keeps the invariants, adds the registers it claims
to the sum of the bank sizes and leaves the program handle alone, as long as that sum
stays below 2^32. -/
theorem AddUniform_ok_inv (namecap : Nat) (s s1 : OpenGLEffect) (name : String)
    (location count type : Nat)
    (h : AddUniform namecap s name location count type = some (.ok s1))
    (hinv : EffectOk namecap s)
    (hfit : s.floatsize + s.intsize + addClaimed namecap name count type < U32) :
    EffectOk namecap s1 ∧
    s1.floatsize + s1.intsize
      = s.floatsize + s.intsize + addClaimed namecap name count type ∧
    s1.program = s.program := by
  have hmat : type = GL_FLOAT_MAT4 → effectiveCount count type = 4 := by
    intro h; rw [h]; exact effectiveCount_mat4 count
  by_cases hname : name.length ≥ namecap
  · rw [AddUniform_throws namecap s name location count type
      (by simp [addThrows, hname])] at h
    cases h
  · have hlt : name.length < namecap := Nat.not_le.mp hname
    cases hf : isFloatFamily type
    · cases hi : isIntFamily type
      · rw [AddUniform_throws namecap s name location count type
          (by simp [addThrows, hf, hi])] at h
        cases h
      · have hc : addClaimed namecap name count type = effectiveCount count type := by
          simp [addClaimed, hname, hf, hi]
        rw [hc] at hfit ⊢
        have hfit2 : s.intsize + effectiveCount count type < U32 := by omega
        rw [AddUniform_int namecap s name location count type hlt hf hi] at h
        split at h
        · simp only [Option.some.injEq, Except.ok.injEq] at h
          subst h
          refine ⟨⟨RegistersOk_addInt s name location _ type hf hinv.registers hfit2 hmat,
            RegistryOk_insert namecap _ _ hinv.registry hlt (Or.inr hi),
            hinv.floatGrowth, ?_⟩, ?_, rfl⟩
          · show grownCap _ _ _ ≤ (s.intsize + effectiveCount count type) % U32 + 8
            rw [Nat.mod_eq_of_lt hfit2]
            exact grownCap_le _ _ _ hfit2 hinv.intGrowth
          · show s.floatsize + (s.intsize + effectiveCount count type) % U32 = _
            rw [Nat.mod_eq_of_lt hfit2]; omega
        · cases h
    · have hc : addClaimed namecap name count type = effectiveCount count type := by
        simp [addClaimed, hname, hf]
      rw [hc] at hfit ⊢
      have hfit2 : s.floatsize + effectiveCount count type < U32 := by omega
      rw [AddUniform_float namecap s name location count type hlt hf] at h
      split at h
      · simp only [Option.some.injEq, Except.ok.injEq] at h
        subst h
        refine ⟨⟨RegistersOk_addFloat s name location _ type hf hinv.registers hfit2 hmat,
          RegistryOk_insert namecap _ _ hinv.registry hlt (Or.inl hf), ?_,
          hinv.intGrowth⟩, ?_, rfl⟩
        · show grownCap _ _ _ ≤ (s.floatsize + effectiveCount count type) % U32 + 8
          rw [Nat.mod_eq_of_lt hfit2]
          exact grownCap_le _ _ _ hfit2 hinv.floatGrowth
        · show (s.floatsize + effectiveCount count type) % U32 + s.intsize = _
          rw [Nat.mod_eq_of_lt hfit2]; omega
      · cases h

/-- Every `AddUniform` call has a defined result as long as the registers claimed so far
and by the call, plus 8, stay below 2^30. -/
theorem AddUniform_defined (namecap : Nat) (s : OpenGLEffect) (name : String)
    (location count type : Nat) (hinv : EffectOk namecap s)
    (hfit : s.floatsize + s.intsize + addClaimed namecap name count type + 8 < 1073741824) :
    ∃ r, AddUniform namecap s name location count type = some r := by
  by_cases hname : name.length ≥ namecap
  · exact ⟨_, AddUniform_throws namecap s name location count type
      (by simp [addThrows, hname])⟩
  · have hlt : name.length < namecap := Nat.not_le.mp hname
    have hfg := hinv.floatGrowth
    have hig := hinv.intGrowth
    cases hf : isFloatFamily type
    · cases hi : isIntFamily type
      · exact ⟨_, AddUniform_throws namecap s name location count type
          (by simp [addThrows, hf, hi])⟩
      · have hc : addClaimed namecap name count type = effectiveCount count type := by
          simp [addClaimed, hname, hf, hi]
        rw [hc] at hfit
        exact ⟨_, AddUniform_int_returns namecap s name location count type hlt hf hi
          (by omega) (by omega) (by omega)⟩
    · have hc : addClaimed namecap name count type = effectiveCount count type := by
        simp [addClaimed, hname, hf]
      rw [hc] at hfit
      exact ⟨_, AddUniform_float_returns namecap s name location count type hlt hf
        (by omega) (by omega) (by omega)⟩

theorem QueryUniforms_loop_inv (namecap : Nat) (active : List ActiveUniform) :
    ∀ (s : OpenGLEffect) (r : OpenGLEffect × Option Int),
      QueryUniforms_loop namecap active s = some r → EffectOk namecap s →
      s.floatsize + s.intsize + queryClaimed namecap active < U32 →
      EffectOk namecap r.1 ∧
      r.1.floatsize + r.1.intsize
        = s.floatsize + s.intsize + queryClaimed namecap active ∧
      r.1.program = s.program := by
  induction active with
  | nil =>
    intro s r h hinv _
    simp only [QueryUniforms_loop, Option.some.injEq] at h
    subst h
    exact ⟨hinv, rfl, rfl⟩
  | cons a rest ih =>
    intro s r h hinv hfit
    unfold QueryUniforms_loop at h
    unfold queryClaimed at hfit ⊢
    by_cases hloc : a.loc = -1
    · simp only [hloc, if_true] at h hfit ⊢
      exact ih s r h hinv hfit
    · simp only [hloc, if_false] at h hfit ⊢
      cases hthrow : addThrows namecap (stripSubscript a.name) a.type
      · simp only [hthrow, Bool.false_eq_true, if_false] at hfit ⊢
        obtain ⟨hres, hcl⟩ := AddUniform_of_not_throws namecap s (stripSubscript a.name)
          (a.loc % U32).toNat a.size a.type hthrow
        rcases hres with hn | ⟨s1, hok⟩
        · rw [hn] at h; cases h
        · rw [hok] at h
          obtain ⟨h1, h2, h3⟩ := AddUniform_ok_inv namecap s s1 (stripSubscript a.name)
            (a.loc % U32).toNat a.size a.type hok hinv (by rw [hcl]; omega)
          rw [hcl] at h2
          obtain ⟨k1, k2, k3⟩ := ih s1 r h h1 (by rw [h2]; omega)
          exact ⟨k1, by rw [k2, h2]; omega, by rw [k3, h3]⟩
      · simp only [hthrow, if_true] at hfit ⊢
        rw [AddUniform_throws namecap s _ _ _ _ hthrow] at h
        simp only [Option.some.injEq] at h
        subst h
        exact ⟨hinv, rfl, rfl⟩

theorem QueryUniforms_loop_defined (namecap : Nat) (active : List ActiveUniform) :
    ∀ s : OpenGLEffect, EffectOk namecap s →
      s.floatsize + s.intsize + queryClaimed namecap active + 8 < 1073741824 →
      ∃ r, QueryUniforms_loop namecap active s = some r := by
  induction active with
  | nil => intro s _ _; exact ⟨_, rfl⟩
  | cons a rest ih =>
    intro s hinv hfit
    unfold QueryUniforms_loop
    unfold queryClaimed at hfit
    by_cases hloc : a.loc = -1
    · simp only [hloc, if_true] at hfit ⊢
      exact ih s hinv hfit
    · simp only [hloc, if_false] at hfit ⊢
      cases hthrow : addThrows namecap (stripSubscript a.name) a.type
      · simp only [hthrow, Bool.false_eq_true, if_false] at hfit
        obtain ⟨hres, hcl⟩ := AddUniform_of_not_throws namecap s (stripSubscript a.name)
          (a.loc % U32).toNat a.size a.type hthrow
        obtain ⟨res, hdef⟩ := AddUniform_defined namecap s (stripSubscript a.name)
          (a.loc % U32).toNat a.size a.type hinv (by rw [hcl]; omega)
        rcases hres with hn | ⟨s1, hok⟩
        · rw [hn] at hdef; cases hdef
        · rw [hok]
          obtain ⟨h1, h2, _⟩ := AddUniform_ok_inv namecap s s1 (stripSubscript a.name)
            (a.loc % U32).toNat a.size a.type hok hinv
            (by rw [hcl]; simp only [U32]; omega)
          rw [hcl] at h2
          exact ih s1 h1 (by rw [h2]; omega)
      · rw [AddUniform_throws namecap s _ _ _ _ hthrow]
        exact ⟨_, rfl⟩

theorem EffectOk_clear (namecap : Nat) (s : OpenGLEffect) (hinv : EffectOk namecap s) :
    EffectOk namecap { s with uniforms := [] } :=
  { registers :=
      { disjoint := List.Pairwise.nil
        floatRange := fun _ h => by cases h
        intRange := fun _ h => by cases h
        floatCap := hinv.registers.floatCap
        intCap := hinv.registers.intCap
        mat4 := fun _ h => by cases h }
    registry :=
      { unique := List.Pairwise.nil
        fits := fun _ h => by cases h
        family := fun _ h => by cases h }
    floatGrowth := hinv.floatGrowth
    intGrowth := hinv.intGrowth }

/-- One call that has a defined result, `AddUniform` or `QueryUniforms`, keeps the
invariants. -/
theorem stepOp_inv (namecap : Nat) (s s1 : OpenGLEffect) (op : EffectOp)
    (h : stepOp namecap s op = some s1) (hinv : EffectOk namecap s)
    (hfit : s.floatsize + s.intsize + opClaimed namecap s.program op < U32) :
    EffectOk namecap s1 ∧
    s1.floatsize + s1.intsize = s.floatsize + s.intsize + opClaimed namecap s.program op ∧
    s1.program = s.program := by
  cases op with
  | add name location count type =>
    simp only [stepOp] at h
    simp only [opClaimed] at hfit ⊢
    cases hthrow : addThrows namecap name type
    · obtain ⟨hres, _⟩ := AddUniform_of_not_throws namecap s name location count type hthrow
      rcases hres with hn | ⟨s2, hok⟩
      · rw [hn] at h; cases h
      · rw [hok] at h
        simp only [Option.some.injEq] at h
        subst h
        exact AddUniform_ok_inv namecap s s2 name location count type hok hinv hfit
    · rw [AddUniform_throws namecap s name location count type hthrow] at h
      simp only [Option.some.injEq] at h
      subst h
      rw [addClaimed_of_throws namecap name count type hthrow]
      exact ⟨hinv, rfl, rfl⟩
  | query active =>
    simp only [stepOp, QueryUniforms] at h
    simp only [opClaimed] at hfit ⊢
    by_cases hp : s.program = 0
    · simp only [hp, if_true, Option.some.injEq] at h ⊢
      subst h
      exact ⟨hinv, rfl, hp⟩
    · simp only [hp, if_false] at h hfit ⊢
      cases hloop : QueryUniforms_loop namecap active { s with uniforms := [] } with
      | none => rw [hloop] at h; cases h
      | some r =>
        rw [hloop] at h
        simp only [Option.some.injEq] at h
        subst h
        exact QueryUniforms_loop_inv namecap active { s with uniforms := [] } r hloop
          (EffectOk_clear namecap s hinv) hfit

theorem stepOp_defined (namecap : Nat) (s : OpenGLEffect) (op : EffectOp)
    (hinv : EffectOk namecap s)
    (hfit : s.floatsize + s.intsize + opClaimed namecap s.program op + 8 < 1073741824) :
    ∃ s1, stepOp namecap s op = some s1 := by
  cases op with
  | add name location count type =>
    simp only [opClaimed] at hfit
    obtain ⟨res, hdef⟩ := AddUniform_defined namecap s name location count type hinv hfit
    simp only [stepOp, hdef]
    cases res with
    | error e => exact ⟨_, rfl⟩
    | ok s2 => exact ⟨_, rfl⟩
  | query active =>
    simp only [stepOp, QueryUniforms]
    simp only [opClaimed] at hfit
    by_cases hp : s.program = 0
    · simp only [hp, if_true]
      exact ⟨_, rfl⟩
    · simp only [hp, if_false] at hfit ⊢
      obtain ⟨r, hr⟩ := QueryUniforms_loop_defined namecap active _
        (EffectOk_clear namecap s hinv) hfit
      rw [hr]
      exact ⟨_, rfl⟩

/-- A sequence of calls keeps the invariants and claims no more registers than
`totalClaimed` says. -/
theorem runOps_ok (namecap : Nat) (ops : List EffectOp) :
    ∀ s : OpenGLEffect, EffectOk namecap s →
      s.floatsize + s.intsize + totalClaimed namecap s.program ops < U32 →
      EffectOk namecap (runOps namecap s ops) ∧
      (runOps namecap s ops).floatsize + (runOps namecap s ops).intsize
        ≤ s.floatsize + s.intsize + totalClaimed namecap s.program ops := by
  induction ops with
  | nil => intro s hinv _; exact ⟨hinv, by simp [runOps, totalClaimed]⟩
  | cons op rest ih =>
    intro s hinv hfit
    simp only [totalClaimed, List.map_cons, List.sum_cons] at hfit ⊢
    cases hstep : stepOp namecap s op with
    | none =>
      simp only [runOps, hstep]
      exact ⟨hinv, by omega⟩
    | some s1 =>
      obtain ⟨h1, h2, h3⟩ := stepOp_inv namecap s s1 op hstep hinv (by omega)
      simp only [runOps, hstep]
      have := ih s1 h1 (by rw [h2, h3]; simp only [totalClaimed]; omega)
      rw [h2, h3] at this
      simp only [totalClaimed] at this
      exact ⟨this.1, by omega⟩

/-- Every call of a sequence that claims fewer than 2^30 - 8 registers has a defined
result. -/
theorem runsThrough_small (namecap : Nat) (ops : List EffectOp) :
    ∀ s : OpenGLEffect, EffectOk namecap s →
      s.floatsize + s.intsize + totalClaimed namecap s.program ops + 8 < 1073741824 →
      runsThrough namecap s ops = true := by
  induction ops with
  | nil => intro s _ _; rfl
  | cons op rest ih =>
    intro s hinv hfit
    simp only [totalClaimed, List.map_cons, List.sum_cons] at hfit
    obtain ⟨s1, hstep⟩ := stepOp_defined namecap s op hinv (by omega)
    obtain ⟨h1, h2, h3⟩ := stepOp_inv namecap s s1 op hstep hinv
      (by simp only [U32]; omega)
    simp only [runsThrough, hstep]
    exact ih s1 h1 (by rw [h2, h3]; simp only [totalClaimed]; omega)

theorem EffectOk_newEffect (namecap : Nat) (fmem imem : Nat → Nat) (program : Nat) :
    EffectOk namecap (newEffect fmem imem program) :=
  { registers :=
      { disjoint := List.Pairwise.nil
        floatRange := fun _ h => by cases h
        intRange := fun _ h => by cases h
        floatCap := Nat.le_refl _
        intCap := Nat.le_refl _
        mat4 := fun _ h => by cases h }
    registry :=
      { unique := List.Pairwise.nil
        fits := fun _ h => by cases h
        family := fun _ h => by cases h }
    floatGrowth := Nat.le_add_left _ _
    intGrowth := Nat.le_add_left _ _ }

/-- C10: in every state reached from a newly constructed effect (with any program handle
assigned to it) by a sequence of `AddUniform` and `QueryUniforms` calls that claims
fewer than 2^32 registers in total, any two distinct registered uniforms of the same
bank have disjoint register ranges, every range lies inside `[0, bank size)`, no bank
size exceeds the bank capacity, and every `GL_FLOAT_MAT4` uniform has `RegisterCount` 4. -/
theorem C10_register_invariant (namecap : Nat) (fmem imem : Nat → Nat) (program : Nat)
    (ops : List EffectOp) (hclaimed : totalClaimed namecap program ops < U32) :
    (∀ (i j : Nat) (hi : i < (runOps namecap (newEffect fmem imem program) ops).uniforms.length)
        (hj : j < (runOps namecap (newEffect fmem imem program) ops).uniforms.length),
      i ≠ j →
      sameBank ((runOps namecap (newEffect fmem imem program) ops).uniforms.get ⟨i, hi⟩)
        ((runOps namecap (newEffect fmem imem program) ops).uniforms.get ⟨j, hj⟩) →
      disjointRanges ((runOps namecap (newEffect fmem imem program) ops).uniforms.get ⟨i, hi⟩)
        ((runOps namecap (newEffect fmem imem program) ops).uniforms.get ⟨j, hj⟩)) ∧
    (∀ uni ∈ (runOps namecap (newEffect fmem imem program) ops).uniforms,
      isFloatFamily uni.Type_ = true →
      uni.StartRegister + uni.RegisterCount
        ≤ (runOps namecap (newEffect fmem imem program) ops).floatsize) ∧
    (∀ uni ∈ (runOps namecap (newEffect fmem imem program) ops).uniforms,
      isIntFamily uni.Type_ = true →
      uni.StartRegister + uni.RegisterCount
        ≤ (runOps namecap (newEffect fmem imem program) ops).intsize) ∧
    (runOps namecap (newEffect fmem imem program) ops).floatsize
      ≤ (runOps namecap (newEffect fmem imem program) ops).floatcap ∧
    (runOps namecap (newEffect fmem imem program) ops).intsize
      ≤ (runOps namecap (newEffect fmem imem program) ops).intcap ∧
    (∀ uni ∈ (runOps namecap (newEffect fmem imem program) ops).uniforms,
      uni.Type_ = GL_FLOAT_MAT4 → uni.RegisterCount = 4) := by
  have hrun := (runOps_ok namecap ops _ (EffectOk_newEffect namecap fmem imem program)
    (by show 0 + 0 + totalClaimed namecap program ops < U32; omega)).1.registers
  refine ⟨?_, hrun.floatRange, hrun.intRange, hrun.floatCap, hrun.intCap, hrun.mat4⟩
  intro i j hi hj hij hsame
  have hpw := List.pairwise_iff_getElem.mp hrun.disjoint
  rcases Nat.lt_or_gt_of_ne hij with h | h
  · exact hpw i j hi hj h hsame
  · rcases hsame with ⟨a, b⟩ | ⟨a, b⟩
    · rcases hpw j i hj hi h (Or.inl ⟨b, a⟩) with d | d
      · exact Or.inr d
      · exact Or.inl d
    · rcases hpw j i hj hi h (Or.inr ⟨b, a⟩) with d | d
      · exact Or.inr d
      · exact Or.inl d

/-- The calls of the witness of C10: two `AddUniform` calls, one of them for a matrix and
one that throws, then `QueryUniforms` with an array uniform, an unlocated uniform and
a sampler. -/
theorem C10_register_invariant_witness :
    totalClaimed 32 7 sampleOps < U32 ∧
    (runOps 32 (newEffect (fun _ => 0) (fun _ => 0) 7) sampleOps).floatsize
      ≤ (runOps 32 (newEffect (fun _ => 0) (fun _ => 0) 7) sampleOps).floatcap ∧
    (∀ uni ∈ (runOps 32 (newEffect (fun _ => 0) (fun _ => 0) 7) sampleOps).uniforms,
      uni.Type_ = GL_FLOAT_MAT4 → uni.RegisterCount = 4) :=
  ⟨by decide,
   (C10_register_invariant 32 (fun _ => 0) (fun _ => 0) 7 sampleOps (by decide)).2.2.2.1,
   (C10_register_invariant 32 (fun _ => 0) (fun _ => 0) 7 sampleOps (by decide)).2.2.2.2.2⟩

/-! ## The setters on a registered uniform -/

theorem markChanged_find (us : List Uniform) (name : String)
    (huniq : us.Pairwise (fun a b => a.Name ≠ b.Name)) :
    markChanged us (uniforms_find us name) = flagChanged us name := by
  induction us with
  | nil => simp [markChanged, flagChanged]
  | cons v vs ih =>
    rw [List.pairwise_cons] at huniq
    unfold markChanged uniforms_find flagChanged
    rw [List.findIdx_cons]
    by_cases hv : v.Name = name
    · have hrest : vs.map (fun uni => if uni.Name = name then { uni with Changed := true }
          else uni) = vs := by
        conv_rhs => rw [← List.map_id vs]
        apply List.map_congr_left
        intro w hw
        have : w.Name ≠ name := by
          intro h; exact huniq.1 w hw (hv.trans h.symm)
        simp [this]
      simp only [hv, decide_True, cond_true, List.modify_zero_cons, List.map_cons, if_true]
      rw [hrest]
    · have := ih huniq.2
      unfold markChanged uniforms_find flagChanged at this
      simp only [hv, decide_False, cond_false, List.modify_succ_cons, List.map_cons, if_false]
      rw [this]

theorem find_registered (us : List Uniform) (uni : Uniform) (hmem : uni ∈ us)
    (huniq : us.Pairwise (fun a b => a.Name ≠ b.Name)) :
    ∃ h : uniforms_find us uni.Name < us.length,
      us.get ⟨uniforms_find us uni.Name, h⟩ = uni := by
  have hlt : uniforms_find us uni.Name < us.length :=
    List.findIdx_lt_length_of_exists ⟨uni, hmem, by simp⟩
  refine ⟨hlt, ?_⟩
  have hname : (us.get ⟨uniforms_find us uni.Name, hlt⟩).Name = uni.Name := by
    have := @List.findIdx_getElem _ (fun v : Uniform => decide (v.Name = uni.Name)) us hlt
    simpa [uniforms_find] using this
  by_contra hne
  have hsym : Symmetric (fun a b : Uniform => a.Name ≠ b.Name) := fun _ _ h => h.symm
  exact huniq.forall hsym (List.get_mem us _ _) hmem hne hname

theorem SetVector_registered (namecap : Nat) (s : OpenGLEffect) (uni : Uniform)
    (value : Nat → Nat) (hmem : uni ∈ s.uniforms) (hok : RegistryOk namecap s.uniforms)
    (hin : insideBlock (regWords uni.StartRegister) (regWords uni.RegisterCount)
      (floatWords s) = true) :
    SetVector namecap s uni.Name value = some
      { s with
        floatvalues := memcpyWords s.floatvalues (regWords uni.StartRegister) value
          (regWords uni.RegisterCount)
        uniforms := flagChanged s.uniforms uni.Name } := by
  obtain ⟨hlt, hget⟩ := find_registered s.uniforms uni hmem hok.unique
  have hfit : ¬ uni.Name.length ≥ namecap := Nat.not_le.mpr (hok.fits uni hmem)
  unfold SetVector
  rw [if_neg hfit]
  simp only [dif_pos hlt, hget, hin, if_true, markChanged_find s.uniforms uni.Name hok.unique]

theorem SetFloat_registered (namecap : Nat) (s : OpenGLEffect) (uni : Uniform)
    (v : Nat) (hmem : uni ∈ s.uniforms) (hok : RegistryOk namecap s.uniforms)
    (hin : insideBlock (regWords uni.StartRegister) 1 (floatWords s) = true) :
    SetFloat namecap s uni.Name v = some
      { s with
        floatvalues := Function.update s.floatvalues (regWords uni.StartRegister) v
        uniforms := flagChanged s.uniforms uni.Name } := by
  obtain ⟨hlt, hget⟩ := find_registered s.uniforms uni hmem hok.unique
  have hfit : ¬ uni.Name.length ≥ namecap := Nat.not_le.mpr (hok.fits uni hmem)
  unfold SetFloat
  rw [if_neg hfit]
  simp only [dif_pos hlt, hget, hin, if_true, markChanged_find s.uniforms uni.Name hok.unique]

theorem SetInt_registered (namecap : Nat) (s : OpenGLEffect) (uni : Uniform)
    (v : Nat) (hmem : uni ∈ s.uniforms) (hok : RegistryOk namecap s.uniforms)
    (hin : insideBlock (regWords uni.StartRegister) 1 (intWords s) = true) :
    SetInt namecap s uni.Name v = some
      { s with
        intvalues := Function.update s.intvalues (regWords uni.StartRegister) v
        uniforms := flagChanged s.uniforms uni.Name } := by
  obtain ⟨hlt, hget⟩ := find_registered s.uniforms uni hmem hok.unique
  have hfit : ¬ uni.Name.length ≥ namecap := Nat.not_le.mpr (hok.fits uni hmem)
  unfold SetInt
  rw [if_neg hfit]
  simp only [dif_pos hlt, hget, hin, if_true, markChanged_find s.uniforms uni.Name hok.unique]

theorem memcpyWords_changed (bank value : Nat → Nat) (off n w : Nat)
    (h : memcpyWords bank off value n w ≠ bank w) : off ≤ w ∧ w < off + n := by
  unfold memcpyWords at h
  by_contra hc
  simp only [hc, if_false] at h
  exact h rfl

theorem update_changed (bank : Nat → Nat) (off v w : Nat)
    (h : Function.update bank off v w ≠ bank w) : w = off := by
  by_contra hc
  rw [Function.update_noteq hc] at h
  exact h rfl

/-- C11: in a state reached from a new effect by `AddUniform` and `QueryUniforms` calls that
claim fewer than 2^30 - 8 registers, every one of those calls has a defined result, and
for a registered uniform: when it is of the float family, `SetVector` and `SetMatrix`
return and write the float bank only, and there only words of the uniform's own
registers `[StartRegister, StartRegister + RegisterCount)`, and `SetFloat` (for a
uniform of at least one register) returns and writes only the first word of register
`StartRegister` of the float bank; when it is of the integer family, `SetInt` (for a
uniform of at least one register) returns and writes only the first word of register
`StartRegister` of the integer bank.  Each of these calls sets the dirty flag of the
entry with that name and changes no other entry, and names are unique.  Every uniform
is of one of the two families; its registers lie inside its bank, below the bank size,
the capacity and the end of the allocated block, and apart from those of every other
uniform of that bank. -/
theorem C11_setters_frame (namecap : Nat) (fmem imem : Nat → Nat) (program : Nat)
    (ops : List EffectOp) (s : OpenGLEffect) (uni : Uniform) (value : Nat → Nat) (v : Nat)
    (hs : s = runOps namecap (newEffect fmem imem program) ops)
    (hclaimed : totalClaimed namecap program ops + 8 < 1073741824)
    (huni : uni ∈ s.uniforms) :
    runsThrough namecap (newEffect fmem imem program) ops = true ∧
    (isFloatFamily uni.Type_ = true →
      ∃ s1, SetVector namecap s uni.Name value = some s1 ∧
        SetMatrix namecap s uni.Name value = some s1 ∧
        s1.intvalues = s.intvalues ∧
        (∀ w, s1.floatvalues w ≠ s.floatvalues w →
          4 * uni.StartRegister ≤ w ∧ w < 4 * (uni.StartRegister + uni.RegisterCount)) ∧
        s1.uniforms = flagChanged s.uniforms uni.Name ∧
        s1.floatsize = s.floatsize ∧ s1.intsize = s.intsize) ∧
    (isFloatFamily uni.Type_ = true → 1 ≤ uni.RegisterCount →
      ∃ s1, SetFloat namecap s uni.Name v = some s1 ∧
        s1.intvalues = s.intvalues ∧
        (∀ w, s1.floatvalues w ≠ s.floatvalues w → w = 4 * uni.StartRegister) ∧
        s1.uniforms = flagChanged s.uniforms uni.Name ∧
        s1.floatsize = s.floatsize ∧ s1.intsize = s.intsize) ∧
    (isIntFamily uni.Type_ = true → 1 ≤ uni.RegisterCount →
      ∃ s1, SetInt namecap s uni.Name v = some s1 ∧
        s1.floatvalues = s.floatvalues ∧
        (∀ w, s1.intvalues w ≠ s.intvalues w → w = 4 * uni.StartRegister) ∧
        s1.uniforms = flagChanged s.uniforms uni.Name ∧
        s1.floatsize = s.floatsize ∧ s1.intsize = s.intsize) ∧
    s.uniforms.Pairwise (fun a b => a.Name ≠ b.Name) ∧
    (isFloatFamily uni.Type_ = true ∨ isIntFamily uni.Type_ = true) ∧
    (isFloatFamily uni.Type_ = true →
      uni.StartRegister + uni.RegisterCount ≤ s.floatsize ∧ s.floatsize ≤ s.floatcap ∧
      floatWords s = 4 * s.floatcap) ∧
    (isIntFamily uni.Type_ = true →
      uni.StartRegister + uni.RegisterCount ≤ s.intsize ∧ s.intsize ≤ s.intcap ∧
      intWords s = 4 * s.intcap) ∧
    (∀ other ∈ s.uniforms, other ≠ uni → sameBank uni other → disjointRanges uni other) := by
  have hnew := EffectOk_newEffect namecap fmem imem program
  have hbound : 0 + 0 + totalClaimed namecap program ops < U32 := by
    simp only [U32]; omega
  have hrun := runOps_ok namecap ops _ hnew hbound
  rw [← hs] at hrun
  obtain ⟨hinv, hsizes⟩ := hrun
  have hreg := hinv.registers
  have hok := hinv.registry
  have hfg := hinv.floatGrowth
  have hig := hinv.intGrowth
  have hfc := hreg.floatCap
  have hic := hreg.intCap
  have hsz : s.floatsize + s.intsize ≤ totalClaimed namecap program ops := by
    have : s.floatsize + s.intsize ≤ 0 + 0 + totalClaimed namecap program ops := hsizes
    omega
  have hfw : floatWords s = 4 * s.floatcap := regWords_small _ (by omega)
  have hiw : intWords s = 4 * s.intcap := regWords_small _ (by omega)
  refine ⟨runsThrough_small namecap ops _ hnew (by
      show 0 + 0 + totalClaimed namecap program ops + 8 < 1073741824
      omega), ?_, ?_, ?_, hok.unique, hok.family uni huni, ?_, ?_, ?_⟩
  · intro hf
    have hr := hreg.floatRange uni huni hf
    have hstart : regWords uni.StartRegister = 4 * uni.StartRegister :=
      regWords_small _ (by omega)
    have hcount : regWords uni.RegisterCount = 4 * uni.RegisterCount :=
      regWords_small _ (by omega)
    have hin : insideBlock (regWords uni.StartRegister) (regWords uni.RegisterCount)
        (floatWords s) = true :=
      insideBlock_regs _ _ _ (by omega) (by omega)
    refine ⟨_, SetVector_registered namecap s uni value huni hok hin,
      SetVector_registered namecap s uni value huni hok hin, rfl, ?_, rfl, rfl, rfl⟩
    intro w hw
    have := memcpyWords_changed _ _ _ _ _ hw
    rw [hstart, hcount] at this
    omega
  · intro hf hone
    have hr := hreg.floatRange uni huni hf
    have hstart : regWords uni.StartRegister = 4 * uni.StartRegister :=
      regWords_small _ (by omega)
    have hin : insideBlock (regWords uni.StartRegister) 1 (floatWords s) = true :=
      insideBlock_first _ _ (by omega) (by omega)
    refine ⟨_, SetFloat_registered namecap s uni v huni hok hin, rfl, ?_, rfl, rfl, rfl⟩
    intro w hw
    rw [← hstart]
    exact update_changed _ _ _ _ hw
  · intro hi hone
    have hr := hreg.intRange uni huni hi
    have hstart : regWords uni.StartRegister = 4 * uni.StartRegister :=
      regWords_small _ (by omega)
    have hin : insideBlock (regWords uni.StartRegister) 1 (intWords s) = true :=
      insideBlock_first _ _ (by omega) (by omega)
    refine ⟨_, SetInt_registered namecap s uni v huni hok hin, rfl, ?_, rfl, rfl, rfl⟩
    intro w hw
    rw [← hstart]
    exact update_changed _ _ _ _ hw
  · intro hf
    exact ⟨hreg.floatRange uni huni hf, hfc, hfw⟩
  · intro hi
    exact ⟨hreg.intRange uni huni hi, hic, hiw⟩
  · intro other hother hne hsame
    have hsym : Symmetric (fun a b : Uniform => sameBank a b → disjointRanges a b) := by
      intro a b hab hba
      have h1 : sameBank a b := by
        rcases hba with ⟨x, y⟩ | ⟨x, y⟩
        · exact Or.inl ⟨y, x⟩
        · exact Or.inr ⟨y, x⟩
      rcases hab h1 with d | d
      · exact Or.inr d
      · exact Or.inl d
    exact hreg.disjoint.forall hsym huni hother (Ne.symm hne) hsame

/-- Witness of C11: `SetVector` on the matrix `view` after the calls of `sampleOps`. -/
theorem C11_setters_frame_witness :
    ∃ s1, SetVector 32 (runOps 32 (newEffect (fun _ => 0) (fun _ => 0) 7) sampleOps)
        sampleView.Name (fun k => k + 1) = some s1 ∧
      SetMatrix 32 (runOps 32 (newEffect (fun _ => 0) (fun _ => 0) 7) sampleOps)
        sampleView.Name (fun k => k + 1) = some s1 ∧
      s1.intvalues = (runOps 32 (newEffect (fun _ => 0) (fun _ => 0) 7) sampleOps).intvalues ∧
      (∀ w, s1.floatvalues w
          ≠ (runOps 32 (newEffect (fun _ => 0) (fun _ => 0) 7) sampleOps).floatvalues w →
        4 * sampleView.StartRegister ≤ w ∧
        w < 4 * (sampleView.StartRegister + sampleView.RegisterCount)) ∧
      s1.uniforms = flagChanged
        (runOps 32 (newEffect (fun _ => 0) (fun _ => 0) 7) sampleOps).uniforms
        sampleView.Name ∧
      s1.floatsize = (runOps 32 (newEffect (fun _ => 0) (fun _ => 0) 7) sampleOps).floatsize ∧
      s1.intsize = (runOps 32 (newEffect (fun _ => 0) (fun _ => 0) 7) sampleOps).intsize :=
  (C11_setters_frame 32 (fun _ => 0) (fun _ => 0) 7 sampleOps
    (runOps 32 (newEffect (fun _ => 0) (fun _ => 0) 7) sampleOps) sampleView
    (fun k => k + 1) 5 rfl (by decide) (by decide)).2.1 (by decide)

/-- Counterexample to C11 as stated: with a float vector `f` and an integer `i` registered,
each at register 0 of its bank, both banks allocated with 32 words, `SetVector("i", ...)`
and `SetFloat("i", ...)` leave the integer bank alone and write word 0 of the float
bank, which is register 0 of `f`; `SetInt("f", ...)` leaves the float bank alone and
writes word 0 of the integer bank, which is register 0 of `i`.  On an effect with the
integer `i` alone the float bank is still the null pointer, and `SetFloat("i", ...)`
and `SetVector("i", ...)` have no defined result. -/
theorem C11_counterexample :
    effectFloatAndInt.uniforms
      = [⟨"f", 0, 1, 0, GL_FLOAT_VEC4, true⟩, ⟨"i", 0, 1, 1, GL_INT, true⟩] ∧
    (floatWords effectFloatAndInt, intWords effectFloatAndInt) = (32, 32) ∧
    (effectFloatAndInt.floatvalues 0, effectFloatAndInt.intvalues 0) = (0, 0) ∧
    (SetVector 32 effectFloatAndInt "i" (fun _ => 9)).map
        (fun s1 => (s1.floatvalues 0, s1.intvalues 0)) = some (9, 0) ∧
    (SetFloat 32 effectFloatAndInt "i" 9).map
        (fun s1 => (s1.floatvalues 0, s1.intvalues 0)) = some (9, 0) ∧
    (SetInt 32 effectFloatAndInt "f" 9).map
        (fun s1 => (s1.floatvalues 0, s1.intvalues 0)) = some (0, 9) ∧
    (effectIntOnly.uniforms = [⟨"i", 0, 1, 1, GL_INT, true⟩] ∧
      floatWords effectIntOnly = 0 ∧
      (SetFloat 32 effectIntOnly "i" 9).isNone = true ∧
      (SetVector 32 effectIntOnly "i" (fun _ => 9)).isNone = true) := by
  decide

/-! ## Properties of the mesh -/

/-- C6: a mesh created by `GLCreateMesh` with face count `f` and vertex count `n` has vertex
count `n` and index count `3 * f` reduced modulo 2^32, which is `3 * f` whenever that is
below 2^32; `LockIndexBuffer`, `UnlockIndexBuffer` and `DrawSubset` use the same index
width, 2 bytes when `n < 65535` and 4 bytes otherwise; so 2 bytes for 100 and 65534
vertices and 4 bytes for 65535 and 70000. -/
theorem C6_index_count_and_width (U : DeclUsage → Nat) (f n options : Nat)
    (decl : List OpenGLVertexElement) :
    (GLCreateMesh U f n options decl).numvertices = n ∧
    (GLCreateMesh U f n options decl).numindices = (3 * f) % U32 ∧
    (3 * f < U32 → (GLCreateMesh U f n options decl).numindices = 3 * f) ∧
    LockIndexBuffer_istride (GLCreateMesh U f n options decl)
      = UnlockIndexBuffer_istride (GLCreateMesh U f n options decl) ∧
    UnlockIndexBuffer_istride (GLCreateMesh U f n options decl)
      = DrawSubset_istride (GLCreateMesh U f n options decl) ∧
    DrawSubset_istride (GLCreateMesh U f n options decl) = (if n < 65535 then 2 else 4) ∧
    LockIndexBuffer_istride (GLCreateMesh U f 100 options decl) = 2 ∧
    LockIndexBuffer_istride (GLCreateMesh U f 65534 options decl) = 2 ∧
    LockIndexBuffer_istride (GLCreateMesh U f 65535 options decl) = 4 ∧
    LockIndexBuffer_istride (GLCreateMesh U f 70000 options decl) = 4 := by
  have hidx : (GLCreateMesh U f n options decl).numindices = (3 * f) % U32 := by
    show (f * 3) % U32 = _
    rw [Nat.mul_comm]
  have hdraw : DrawSubset_istride (GLCreateMesh U f n options decl)
      = (if n < 65535 then 2 else 4) := by
    show indexTypeBytes (if n ≥ 0xffff then GL_UNSIGNED_INT else GL_UNSIGNED_SHORT) = _
    by_cases h : n < 65535
    · rw [if_neg (by omega), if_pos h]; decide
    · rw [if_pos (by omega), if_neg h]; decide
  have hunlock : UnlockIndexBuffer_istride (GLCreateMesh U f n options decl)
      = (if n < 65535 then 2 else 4) := by
    show (if n ≥ 0xffff then 4 else 2) = _
    by_cases h : n < 65535
    · rw [if_neg (by omega), if_pos h]
    · rw [if_pos (by omega), if_neg h]
  refine ⟨rfl, hidx, ?_, ?_, ?_, hdraw, rfl, rfl, rfl, rfl⟩
  · intro h
    rw [hidx, Nat.mod_eq_of_lt h]
  · rw [hunlock]
    exact hunlock
  · rw [hunlock, hdraw]

/-- Counterexample to C6 as stated: `GLCreateMesh` with 1431655766 faces keeps index count
2, not 3 * 1431655766. -/
theorem C6_counterexample :
    (GLCreateMesh sampleUsage 1431655766 3 0 [sentinelElement]).numindices = 2 ∧
    (GLCreateMesh sampleUsage 1431655766 3 0 [sentinelElement]).numindices
      ≠ 3 * 1431655766 := by
  decide

theorem strideLoop_layout (pre post : List OpenGLVertexElement) (sentinel : OpenGLVertexElement)
    (hpre : ∀ e ∈ pre, e.Stream ≠ 0xff) (hs : sentinel.Stream = 0xff) (n acc : Nat) :
    strideLoop n (pre ++ sentinel :: post) acc
      = acc + ((pre.take n).map (fun e => declTypeSize e.Type_)).sum := by
  induction pre generalizing n acc with
  | nil =>
    cases n with
    | zero => simp [strideLoop]
    | succ k => simp [strideLoop, hs]
  | cons e es ih =>
    have he : e.Stream ≠ 0xff := hpre e (List.mem_cons_self _ _)
    have hes : ∀ x ∈ es, x.Stream ≠ 0xff := fun x hx => hpre x (List.mem_cons_of_mem _ hx)
    cases n with
    | zero => simp [strideLoop]
    | succ k =>
      simp only [List.cons_append, strideLoop, he, if_false, List.take_succ_cons, List.map_cons,
        List.sum_cons, List.append_eq]
      rw [ih hes]
      omega

theorem bindLoop_layout (U : DeclUsage → Nat) (stride : Nat)
    (pre post : List OpenGLVertexElement) (sentinel : OpenGLVertexElement)
    (hpre : ∀ e ∈ pre, e.Stream ≠ 0xff) (hs : sentinel.Stream = 0xff) (n : Nat) :
    bindLoop U stride n (pre ++ sentinel :: post)
      = (pre.take n).flatMap (bindElement U stride) := by
  induction pre generalizing n with
  | nil =>
    cases n with
    | zero => simp [bindLoop]
    | succ k => simp [bindLoop, hs]
  | cons e es ih =>
    have he : e.Stream ≠ 0xff := hpre e (List.mem_cons_self _ _)
    have hes : ∀ x ∈ es, x.Stream ≠ 0xff := fun x hx => hpre x (List.mem_cons_of_mem _ hx)
    cases n with
    | zero => simp [bindLoop]
    | succ k =>
      simp only [List.cons_append, bindLoop, he, if_false, List.take_succ_cons,
        List.flatMap_cons, List.append_eq]
      rw [ih hes]

theorem pointerArgs_append (a b : List MeshCall) :
    pointerArgs (a ++ b) = pointerArgs a ++ pointerArgs b := by
  induction a with
  | nil => rfl
  | cons c cs ih => cases c <;> simp [pointerArgs, ih]

theorem pointerArgs_bindElement (U : DeclUsage → Nat) (stride : Nat) (e : OpenGLVertexElement) :
    pointerArgs (bindElement U stride e) = [] ∨ pointerArgs (bindElement U stride e) = [e.Offset] := by
  unfold bindElement
  split_ifs <;> simp [pointerArgs]

theorem pointerArgs_flatMap (U : DeclUsage → Nat) (stride : Nat) (es : List OpenGLVertexElement) :
    ∀ p ∈ pointerArgs (es.flatMap (bindElement U stride)), ∃ e ∈ es, p = e.Offset := by
  induction es with
  | nil => intro p h; simp [pointerArgs] at h
  | cons e rest ih =>
    intro p h
    rw [List.flatMap_cons, pointerArgs_append, List.mem_append] at h
    rcases h with h | h
    · rcases pointerArgs_bindElement U stride e with h0 | h0
      · rw [h0] at h; cases h
      · rw [h0, List.mem_singleton] at h
        exact ⟨e, List.mem_cons_self _ _, h⟩
    · obtain ⟨x, hx, hp⟩ := ih p h
      exact ⟨x, List.mem_cons_of_mem _ hx, hp⟩

/-- C7: for a layout that ends in a sentinel, the stride of the mesh made by `GLCreateMesh`
is the sum of the sizes of the elements before the sentinel, the first sixteen at most
(float1 4, float2 8, float3 12, float4 16, packed color 4, any other type code 0); the
calls recorded for the layout are those of `bindElement` for these elements, and every
offset handed to `glVertexAttribPointer` is the `Offset` field the caller wrote in the
element it is made for.  For the layout float3 position, float3 normal, packed color
with the offsets 0, 12, 24 the stride is 28 and the offsets used are 0, 12, 24. -/
theorem C7_stride_and_offsets (U : DeclUsage → Nat) (f n options : Nat)
    (pre post : List OpenGLVertexElement) (sentinel : OpenGLVertexElement)
    (hpre : ∀ e ∈ pre, e.Stream ≠ 0xff) (hs : sentinel.Stream = 0xff) :
    (GLCreateMesh U f n options (pre ++ sentinel :: post)).stride
      = ((pre.take 16).map (fun e => declTypeSize e.Type_)).sum ∧
    (GLCreateMesh U f n options (pre ++ sentinel :: post)).layout
      = (pre.take 16).flatMap
          (bindElement U (GLCreateMesh U f n options (pre ++ sentinel :: post)).stride) ∧
    (∀ p ∈ pointerArgs (GLCreateMesh U f n options (pre ++ sentinel :: post)).layout,
      ∃ e ∈ pre.take 16, p = e.Offset) ∧
    (GLCreateMesh sampleUsage f n options
      (layoutPosNormalColor sampleUsage ++ sentinelElement :: post)).stride = 28 ∧
    pointerArgs (GLCreateMesh sampleUsage f n options
      (layoutPosNormalColor sampleUsage ++ sentinelElement :: post)).layout = [0, 12, 24] := by
  have h1 : (GLCreateMesh U f n options (pre ++ sentinel :: post)).stride
      = ((pre.take 16).map (fun e => declTypeSize e.Type_)).sum := by
    show strideLoop 16 _ 0 = _
    rw [strideLoop_layout pre post sentinel hpre hs]
    omega
  have h2 : (GLCreateMesh U f n options (pre ++ sentinel :: post)).layout
      = (pre.take 16).flatMap
          (bindElement U (GLCreateMesh U f n options (pre ++ sentinel :: post)).stride) := by
    show bindLoop U _ 16 _ = _
    rw [bindLoop_layout U _ pre post sentinel hpre hs]
    rfl
  refine ⟨h1, h2, ?_, ?_, ?_⟩
  · rw [h2]
    exact pointerArgs_flatMap U _ _
  · rfl
  · rfl

/-- Witness of C7: the layout float3 position, float2 texture coordinate. -/
theorem C7_stride_and_offsets_witness :
    (GLCreateMesh sampleUsage 2 4 0
      ([⟨0, 0, GLDECLTYPE_FLOAT3, 0, 0⟩, ⟨0, 12, GLDECLTYPE_FLOAT2, 5, 0⟩]
        ++ sentinelElement :: [])).stride = 20 ∧
    pointerArgs (GLCreateMesh sampleUsage 2 4 0
      ([⟨0, 0, GLDECLTYPE_FLOAT3, 0, 0⟩, ⟨0, 12, GLDECLTYPE_FLOAT2, 5, 0⟩]
        ++ sentinelElement :: [])).layout = [0, 12] :=
  ⟨(C7_stride_and_offsets sampleUsage 2 4 0
      [⟨0, 0, GLDECLTYPE_FLOAT3, 0, 0⟩, ⟨0, 12, GLDECLTYPE_FLOAT2, 5, 0⟩] [] sentinelElement
      (by decide) (by decide)).1.trans (by decide), by decide⟩

/-- Counterexample to C7 as stated: for a layout of one float3 position element whose
`Offset` field is 100, the offset handed to `glVertexAttribPointer` is 100, not the
running sum 0. -/
theorem C7_counterexample :
    (GLCreateMesh sampleUsage 1 3 0
      [⟨0, 100, GLDECLTYPE_FLOAT3, sampleUsage .POSITION, 0⟩, sentinelElement]).layout
      = [.EnableVertexAttribArray 0, .VertexAttribPointer 0 3 GL_FLOAT false 12 100] ∧
    pointerArgs (GLCreateMesh sampleUsage 1 3 0
      [⟨0, 100, GLDECLTYPE_FLOAT3, sampleUsage .POSITION, 0⟩, sentinelElement]).layout
      ≠ [0] := by
  decide

/-! ## Properties of the QM loader -/

theorem readU32_drop (f : List Nat) (n : Nat) (tail : List Nat)
    (h : readU32 f = some (n, tail)) : tail = f.drop 4 := by
  match f, h with
  | b0 :: b1 :: b2 :: b3 :: rest, h =>
    simp only [readU32, Option.some.injEq, Prod.mk.injEq] at h
    rw [← h.2]
    rfl

theorem storeString_below (s : List Nat) :
    ∀ (buff : Nat → Nat) (ind k : Nat), k < ind → storeString buff ind s k = buff k := by
  induction s with
  | nil =>
    intro buff ind k hk
    simp [storeString, Function.update, Nat.ne_of_lt hk]
  | cons c cs ih =>
    intro buff ind k hk
    rw [storeString, ih _ _ _ (Nat.lt_succ_of_lt hk)]
    simp [Function.update, Nat.ne_of_lt hk]

theorem storeString_second (buff : Nat → Nat) (c0 : Nat) (cs : List Nat) :
    storeString buff 0 (c0 :: 44 :: cs) 1 = 44 := by
  rw [storeString, storeString, storeString_below cs _ 2 1 (by decide)]
  simp [Function.update]

theorem GLReadString_field (s : List Nat) :
    ∀ (buff : Nat → Nat) (ind : Nat) (rest : List Nat), (∀ c ∈ s, c % 256 ≠ 10) →
      ind + s.length < 256 →
      GLReadString_loop (s ++ 10 :: rest) buff ind = some (storeString buff ind s, rest) := by
  induction s with
  | nil =>
    intro buff ind rest _ hlen
    have : ind < 256 := by simpa using hlen
    simp [GLReadString_loop, storeString, this]
  | cons c cs ih =>
    intro buff ind rest hnl hlen
    have hc : c % 256 ≠ 10 := hnl c (List.mem_cons_self _ _)
    have hcs : ∀ x ∈ cs, x % 256 ≠ 10 := fun x hx => hnl x (List.mem_cons_of_mem _ hx)
    have hind : ind < 256 := by simp only [List.length_cons] at hlen; omega
    have hlen2 : ind + 1 + cs.length < 256 := by simp only [List.length_cons] at hlen; omega
    simp only [List.cons_append, GLReadString_loop, hind, if_true, hc, if_false, storeString]
    exact ih _ _ _ hcs hlen2

theorem readSubsetTail_colors (mat mat1 : OpenGLMaterial) (buff b : Nat → Nat)
    (f f1 : List Nat) (h : readSubsetTail mat buff f = some (mat1, b, f1)) :
    mat1.Ambient = mat.Ambient ∧ mat1.Diffuse = mat.Diffuse ∧ mat1.Specular = mat.Specular ∧
    mat1.Emissive = mat.Emissive ∧ mat1.Power = mat.Power := by
  unfold readSubsetTail at h
  cases h1 : GLReadString f buff with
  | none => simp [h1] at h
  | some r1 =>
    obtain ⟨buff1, f2⟩ := r1
    simp only [h1] at h
    cases h2 : GLReadStrings 7 f2 buff1 with
    | none => simp [h2] at h
    | some r2 =>
      obtain ⟨buff2, f3⟩ := r2
      simp only [h2, Option.some.injEq, Prod.mk.injEq] at h
      rw [← h.1]
      split <;> simp

/-- A subset record whose second text field has a comma as second character: the
iteration takes the `else` branch and goes on with the text field after the second. -/
theorem readSubset_plain (i : Nat) (bk : Nat → Nat) (fk : List Nat)
    (range : OpenGLAttributeRange) (s1 : List Nat) (c0 : Nat) (cs rest : List Nat)
    (hhead : readSubsetHeader i fk = some (range, s1 ++ 10 :: ((c0 :: 44 :: cs) ++ 10 :: rest)))
    (h1 : ∀ c ∈ s1, c % 256 ≠ 10) (h1len : s1.length < 256)
    (h2 : ∀ c ∈ c0 :: 44 :: cs, c % 256 ≠ 10) (h2len : (c0 :: 44 :: cs).length < 256) :
    readSubset i bk fk
      = match readSubsetTail defaultMaterial
          (storeString (storeString bk 0 s1) 0 (c0 :: 44 :: cs)) rest with
        | none => none
        | some (mat1, b4, f5) => some (range, mat1, b4, f5) := by
  have e1 := GLReadString_field s1 bk 0 ((c0 :: 44 :: cs) ++ 10 :: rest) h1 (by omega)
  have e2 := GLReadString_field (c0 :: 44 :: cs) (storeString bk 0 s1) 0 rest h2 (by omega)
  unfold readSubset
  simp only [hhead, GLReadString, e1, e2, storeString_second]
  rfl

theorem readSubsets_at (n : Nat) :
    ∀ (k i : Nat) (buff : Nat → Nat) (f : List Nat) (table : List OpenGLAttributeRange)
      (mats : List OpenGLMaterial) (f1 : List Nat),
      readSubsets n i buff f = some (table, mats, f1) → k < n →
      ∃ bk fk range mat b2 f2, subsetStart k i buff f = some (bk, fk) ∧
        readSubset (i + k) bk fk = some (range, mat, b2, f2) ∧
        mats.get? k = some mat ∧ subsetStart (k + 1) i buff f = some (b2, f2) := by
  induction n with
  | zero => intro k i buff f table mats f1 _ hk; omega
  | succ n ih =>
    intro k i buff f table mats f1 h hk
    unfold readSubsets at h
    cases hr : readSubset i buff f with
    | none => simp [hr] at h
    | some r =>
      obtain ⟨subset, mat, buff1, f2⟩ := r
      simp only [hr] at h
      cases hrest : readSubsets n (i + 1) buff1 f2 with
      | none => simp [hrest] at h
      | some r2 =>
        obtain ⟨t, m, f3⟩ := r2
        simp only [hrest, Option.some.injEq, Prod.mk.injEq] at h
        obtain ⟨_, hm, _⟩ := h
        cases k with
        | zero =>
          refine ⟨buff, f, subset, mat, buff1, f2, rfl, hr, ?_, ?_⟩
          · rw [← hm]; rfl
          · simp [subsetStart, hr]
        | succ k1 =>
          obtain ⟨bk, fk, range, mat2, b2, f4, e1, e2, e3, e4⟩ :=
            ih k1 (i + 1) buff1 f2 t m f3 hrest (by omega)
          refine ⟨bk, fk, range, mat2, b2, f4, ?_, ?_, ?_, ?_⟩
          · simp only [subsetStart, hr]; exact e1
          · have : i + (k1 + 1) = i + 1 + k1 := by omega
            rw [this]; exact e2
          · rw [← hm]; simpa using e3
          · rw [subsetStart]; simp only [hr]; exact e4

/-- C8: when `GLLoadMeshFromQM` returns and subset record `k` of the file has a second text
field whose second character is a comma, the material handed back for subset `k` has
ambient, diffuse and specular (1,1,1,1), emissive (0,0,0,1) and power 80, and no
material block is consumed: what follows the second text field is read as the fallback
texture field and the seven text fields after it, and record `k + 1` starts right after
them.  The minimal file (one float3 position element, one subset, second text field
`,,`) loads, with the default material and no texture. -/
theorem C8_default_material (U : DeclUsage → Nat) (buff : Nat → Nat) (f : List Nat)
    (r : QMResult) (k : Nat) (bk : Nat → Nat) (fk : List Nat) (range : OpenGLAttributeRange)
    (s1 : List Nat) (c0 : Nat) (cs rest : List Nat)
    (hload : GLLoadMeshFromQM U buff f = some r) (hk : k < r.nummaterials)
    (hstart : recordStart U buff f k = some (bk, fk))
    (hhead : readSubsetHeader k fk = some (range, s1 ++ 10 :: ((c0 :: 44 :: cs) ++ 10 :: rest)))
    (h1 : ∀ c ∈ s1, c % 256 ≠ 10) (h1len : s1.length < 256)
    (h2 : ∀ c ∈ c0 :: 44 :: cs, c % 256 ≠ 10) (h2len : (c0 :: 44 :: cs).length < 256) :
    (∃ mat b2 b3 f3, r.materials.get? k = some mat ∧
      mat.Ambient = ⟨f32_1, f32_1, f32_1, f32_1⟩ ∧
      mat.Diffuse = ⟨f32_1, f32_1, f32_1, f32_1⟩ ∧
      mat.Specular = ⟨f32_1, f32_1, f32_1, f32_1⟩ ∧
      mat.Emissive = ⟨f32_0, f32_0, f32_0, f32_1⟩ ∧
      mat.Power = f32_80 ∧
      readSubsetTail defaultMaterial b2 rest = some (mat, b3, f3) ∧
      recordStart U buff f (k + 1) = some (b3, f3)) ∧
    (GLLoadMeshFromQM sampleUsage (fun _ => 0) qmFileMinimal).map
        (fun m => (m.materials, m.nummaterials, m.mesh.numvertices, m.mesh.numindices,
          m.mesh.stride))
      = some ([defaultMaterial], 1, 3, 3, 12) := by
  refine ⟨?_, by rfl⟩
  unfold GLLoadMeshFromQM at hload
  unfold recordStart at hstart ⊢
  cases hgeo : readGeometry U f with
  | none => simp [hgeo] at hload
  | some gr =>
    obtain ⟨g, f1⟩ := gr
    simp only [hgeo] at hload hstart ⊢
    cases hskip : skipExtra g.version f1 with
    | none => simp [hskip] at hload
    | some f2 =>
      simp only [hskip] at hload hstart ⊢
      unfold loadSubsets at hload
      cases hsub : readSubsets g.numsubsets 0 buff f2 with
      | none => simp [hsub] at hload
      | some tr =>
        obtain ⟨table, mats, f9⟩ := tr
        simp only [hsub, Option.some.injEq] at hload
        have hmats : r.materials = mats := by rw [← hload]
        have hnum : r.nummaterials = g.numsubsets := by rw [← hload]
        obtain ⟨bk1, fk1, range1, mat, b3, f3, e1, e2, e3, e4⟩ :=
          readSubsets_at g.numsubsets k 0 buff f2 table mats f9 hsub (by omega)
        rw [hstart] at e1
        simp only [Option.some.injEq, Prod.mk.injEq] at e1
        rw [← e1.1, ← e1.2, Nat.zero_add,
          readSubset_plain k bk fk range s1 c0 cs rest hhead h1 h1len h2 h2len] at e2
        cases htail : readSubsetTail defaultMaterial
            (storeString (storeString bk 0 s1) 0 (c0 :: 44 :: cs)) rest with
        | none => simp [htail] at e2
        | some tl =>
          obtain ⟨mat1, b4, f5⟩ := tl
          simp only [htail, Option.some.injEq, Prod.mk.injEq] at e2
          obtain ⟨_, hm, hb, hf⟩ := e2
          rw [hm, hb, hf] at htail
          obtain ⟨c1, c2, c3, c4, c5⟩ := readSubsetTail_colors _ _ _ _ _ _ htail
          exact ⟨mat, _, b3, f3, by rw [hmats]; exact e3, c1, c2, c3, c4, c5, htail, e4⟩

/-- Witness of C8: the only subset record of the minimal file. -/
theorem C8_default_material_witness :
    ∃ mat b2 b3 f3, qmMinimalResult.materials.get? 0 = some mat ∧
      mat.Ambient = ⟨f32_1, f32_1, f32_1, f32_1⟩ ∧
      mat.Diffuse = ⟨f32_1, f32_1, f32_1, f32_1⟩ ∧
      mat.Specular = ⟨f32_1, f32_1, f32_1, f32_1⟩ ∧
      mat.Emissive = ⟨f32_0, f32_0, f32_0, f32_1⟩ ∧
      mat.Power = f32_80 ∧
      readSubsetTail defaultMaterial b2 ([44, 44, 10] ++ List.replicate 7 10)
        = some (mat, b3, f3) ∧
      recordStart sampleUsage (fun _ => 0) qmFileMinimal (0 + 1) = some (b3, f3) :=
  (C8_default_material sampleUsage (fun _ => 0) qmFileMinimal qmMinimalResult 0 (fun _ => 0)
    (le32 0 ++ le32 0 ++ le32 3 ++ le32 3 ++ le32 0 ++ List.replicate 24 0
      ++ [109, 101, 115, 104, 10] ++ [44, 44, 10] ++ [44, 44, 10] ++ List.replicate 7 10)
    ⟨0, 0, 1, 0, 3⟩ [109, 101, 115, 104] 44 [] ([44, 44, 10] ++ List.replicate 7 10)
    (by rfl) (by decide) (by rfl) (by rfl) (by decide) (by decide) (by decide) (by decide)).1

/-- C9: when the version in the header is greater than 1 and the 32-bit count `N` stored
after the index payload satisfies 8 * N < 2^32, `GLLoadMeshFromQM` reads the subset
records from 4 + 8 * N bytes after the end of the index payload (in general from
4 + (8 * N mod 2^32) bytes after it); when the version is 0 or 1 it reads them from
the end of the index payload; the table and materials handed back are those read
there. -/
theorem C9_extra_block_skip (U : DeclUsage → Nat) (buff : Nat → Nat) (f : List Nat)
    (g : QMGeometry) (rest : List Nat) (hgeo : readGeometry U f = some (g, rest)) :
    (g.version > 1 → ∀ N tail, readU32 rest = some (N, tail) →
      GLLoadMeshFromQM U buff f = loadSubsets g buff (rest.drop (4 + (8 * N) % U32)) ∧
      (8 * N < U32 →
        GLLoadMeshFromQM U buff f = loadSubsets g buff (rest.drop (4 + 8 * N)))) ∧
    (g.version ≤ 1 → GLLoadMeshFromQM U buff f = loadSubsets g buff rest) := by
  constructor
  · intro hv N tail hN
    have htail := readU32_drop rest N tail hN
    have hgen : GLLoadMeshFromQM U buff f
        = loadSubsets g buff (rest.drop (4 + (8 * N) % U32)) := by
      unfold GLLoadMeshFromQM
      simp only [hgeo, skipExtra, hv, if_true, hN]
      by_cases h0 : N > 0
      · simp only [h0, if_true, fseekCur, htail, List.drop_drop]
      · have hz : N = 0 := by omega
        simp only [h0, if_false, htail, hz]
        rfl
    refine ⟨hgen, ?_⟩
    intro hlt
    rw [hgen, Nat.mod_eq_of_lt hlt]
  · intro hv
    unfold GLLoadMeshFromQM
    have : ¬ g.version > 1 := by omega
    simp only [hgeo, skipExtra, this, if_false]

/-- Witness of C9: version 2 with an extra block of 3 records and with an empty one. -/
theorem C9_extra_block_skip_witness :
    GLLoadMeshFromQM sampleUsage (fun _ => 0) (qmFileExtra 3)
      = loadSubsets qmGeometryEmpty (fun _ => 0)
          ((le32 3 ++ List.replicate (8 * 3) 0xEE ++ plainSubsetRecord).drop (4 + 8 * 3)) ∧
    GLLoadMeshFromQM sampleUsage (fun _ => 0) (qmFileExtra 0)
      = loadSubsets qmGeometryEmpty (fun _ => 0)
          ((le32 0 ++ List.replicate (8 * 0) 0xEE ++ plainSubsetRecord).drop (4 + 8 * 0)) ∧
    (GLLoadMeshFromQM sampleUsage (fun _ => 0) (qmFileExtra 3)).map
        (fun r => (r.mesh.subsettable, r.materials))
      = some ([⟨0, 2, 3, 5, 7⟩], [defaultMaterial]) :=
  ⟨(((C9_extra_block_skip sampleUsage (fun _ => 0) (qmFileExtra 3) qmGeometryEmpty
      (le32 3 ++ List.replicate (8 * 3) 0xEE ++ plainSubsetRecord) (by rfl)).1
      (by decide) 3 (List.replicate (8 * 3) 0xEE ++ plainSubsetRecord) (by decide)).2
      (by decide)),
   (((C9_extra_block_skip sampleUsage (fun _ => 0) (qmFileExtra 0) qmGeometryEmpty
      (le32 0 ++ List.replicate (8 * 0) 0xEE ++ plainSubsetRecord) (by rfl)).1
      (by decide) 0 (List.replicate (8 * 0) 0xEE ++ plainSubsetRecord) (by decide)).2
      (by decide)),
   rfl⟩

/-- Counterexample to C9 as stated: in a version 2 file whose extra count is 2^29 =
536870912 the offset `8 * unused` is 0 in `unsigned int`, so the subset record is read
from 4 bytes after the index payload, where it yields the table entry (0, 2, 3, 5, 7),
and not from 4 + 8 * 536870912 bytes after it, which lies past the end of this file. -/
theorem C9_counterexample :
    readGeometry sampleUsage qmFileWrap
      = some (qmGeometryEmpty, le32 536870912 ++ plainSubsetRecord) ∧
    GLLoadMeshFromQM sampleUsage (fun _ => 0) qmFileWrap
      = loadSubsets qmGeometryEmpty (fun _ => 0)
          ((le32 536870912 ++ plainSubsetRecord).drop 4) ∧
    (GLLoadMeshFromQM sampleUsage (fun _ => 0) qmFileWrap).map
        (fun r => (r.mesh.subsettable, r.materials))
      = some ([⟨0, 2, 3, 5, 7⟩], [defaultMaterial]) ∧
    loadSubsets qmGeometryEmpty (fun _ => 0)
        ((le32 536870912 ++ plainSubsetRecord).drop (4 + 8 * 536870912)) = none :=
  ⟨rfl, rfl, rfl, rfl⟩

/-- C12: evaluation at the failing inputs, and the size that is locked.  For a header with
index count 3, index stride 4 and vertex count 3 the loader locks 6 bytes and reads 12
into them; for index count 4, index stride 2 and vertex count 3 it locks 6 bytes and
reads 8.  In general the locked size is `3 * (c / 3)` times 2 (fewer than 65535
vertices) or 4, whatever the index stride `s` of the header; it is the `c * s` bytes
read when `c` is a multiple of 3 and `s` is that width. -/
theorem C12_index_buffer_size :
    ((readHeader qmFileIndex32).map (fun r => (r.1, indexBytesRead r.1,
        indexBytesLocked sampleUsage r.1 [⟨0, 0, GLDECLTYPE_FLOAT3, 0, 0⟩, sentinelElement]))
      = some (⟨0, 3, 4, 1, 3, 1⟩, 12, 6)) ∧
    readGeometry sampleUsage qmFileIndex32 = none ∧
    ((readHeader qmFileIndex4).map (fun r => (r.1, indexBytesRead r.1,
        indexBytesLocked sampleUsage r.1 [⟨0, 0, GLDECLTYPE_FLOAT3, 0, 0⟩, sentinelElement]))
      = some (⟨0, 4, 2, 1, 3, 1⟩, 8, 6)) ∧
    readGeometry sampleUsage qmFileIndex4 = none ∧
    (∀ (U : DeclUsage → Nat) (h : QMHeader) (decl : List OpenGLVertexElement),
      h.numindices < U32 →
      indexBytesLocked U h decl
        = 3 * (h.numindices / 3) * (if h.numvertices < 65535 then 2 else 4)) ∧
    (∀ (U : DeclUsage → Nat) (h : QMHeader) (decl : List OpenGLVertexElement),
      h.numindices < U32 → h.numindices % 3 = 0 →
      h.istride = (if h.numvertices < 65535 then 2 else 4) →
      indexBytesLocked U h decl = indexBytesRead h) := by
  have hgen : ∀ (U : DeclUsage → Nat) (h : QMHeader) (decl : List OpenGLVertexElement),
      h.numindices < U32 →
      indexBytesLocked U h decl
        = 3 * (h.numindices / 3) * (if h.numvertices < 65535 then 2 else 4) := by
    intro U h decl hc
    show (h.numindices / 3 * 3) % U32 * (if h.numvertices ≥ 0xffff then 4 else 2) = _
    have h1 : h.numindices / 3 * 3 < U32 := by
      have := Nat.div_mul_le_self h.numindices 3
      omega
    rw [Nat.mod_eq_of_lt h1, Nat.mul_comm (h.numindices / 3) 3]
    by_cases hn : h.numvertices < 65535
    · rw [if_neg (by omega), if_pos hn]
    · rw [if_pos (by omega), if_neg hn]
  refine ⟨by rfl, by rfl, by rfl, by rfl, hgen, ?_⟩
  intro U h decl hc h3 hs
  rw [hgen U h decl hc, indexBytesRead, hs]
  have : 3 * (h.numindices / 3) = h.numindices := by omega
  rw [this, Nat.mul_comm]

theorem readBytes_length (n : Nat) (f data rest : List Nat)
    (h : readBytes n f = some (data, rest)) : data.length = n := by
  unfold readBytes at h
  split at h
  · simp only [Option.some.injEq, Prod.mk.injEq] at h
    rw [← h.1, List.length_take]
    omega
  · cases h

/-- What a successful `readGeometry` has done: the header and the declaration it read,
the mesh it created, and the two payloads, each no longer than the buffer locked for
it. -/
theorem readGeometry_some (U : DeclUsage → Nat) (f : List Nat) (g : QMGeometry)
    (rest : List Nat) (h : readGeometry U f = some (g, rest)) :
    ∃ hd f1 elems f2, readHeader f = some (hd, f1) ∧
      readDecl U hd.numelems 0 f1 = some (elems, g.vstride, f2) ∧
      g.decl = elems ++ [sentinelElement] ∧
      g.mesh = GLCreateMesh U (hd.numindices / 3) hd.numvertices 0 g.decl ∧
      g.numvertices = hd.numvertices ∧ g.numindices = hd.numindices ∧
      g.istride = hd.istride ∧
      g.vstride * g.numvertices ≤ LockVertexBuffer g.mesh ∧
      g.vertexdata.length = g.vstride * g.numvertices ∧
      g.istride * g.numindices ≤ LockIndexBuffer g.mesh ∧
      g.indexdata.length = g.istride * g.numindices := by
  unfold readGeometry at h
  cases hh : readHeader f with
  | none => simp [hh] at h
  | some r =>
    obtain ⟨hd, f1⟩ := r
    simp only [hh] at h
    split at h
    · cases h
    · cases hdcl : readDecl U hd.numelems 0 f1 with
      | none => simp [hdcl] at h
      | some r2 =>
        obtain ⟨elems, vstride, f2⟩ := r2
        simp only [hdcl] at h
        split at h
        · cases h
        · rename_i hv
          cases hvb : readBytes (vstride * hd.numvertices) f2 with
          | none => simp [hvb] at h
          | some r3 =>
            obtain ⟨vertexdata, f3⟩ := r3
            simp only [hvb] at h
            split at h
            · cases h
            · rename_i hi
              cases hib : readBytes (hd.istride * hd.numindices) f3 with
              | none => simp [hib] at h
              | some r4 =>
                obtain ⟨indexdata, f4⟩ := r4
                simp only [hib, Option.some.injEq, Prod.mk.injEq] at h
                obtain ⟨hg, _⟩ := h
                subst hg
                exact ⟨hd, f1, elems, f2, rfl, hdcl, rfl, rfl, rfl, rfl, rfl,
                  Nat.le_of_not_lt hv, readBytes_length _ _ _ _ hvb,
                  Nat.le_of_not_lt hi, readBytes_length _ _ _ _ hib⟩

theorem tables_match_declTypeSize (type esize estride : Nat) (ht : type ≤ 4)
    (h1 : elemsizes.get? type = some esize) (h2 : elemstrides.get? type = some estride) :
    esize * estride = declTypeSize type := by
  interval_cases type <;>
  simp [elemsizes, elemstrides] at h1 h2 <;>
  subst h1 <;> subst h2 <;> decide

theorem readDeclElement_stride (U : DeclUsage → Nat) (v : Nat) (f : List Nat)
    (elem : OpenGLVertexElement) (v1 : Nat) (f1 : List Nat)
    (h : readDeclElement U v f = some (elem, v1, f1)) (ht : elem.Type_ ≤ 4) :
    v1 = (v + declTypeSize elem.Type_) % U32 := by
  unfold readDeclElement at h
  split at h
  · cases h
  · split at h
    · cases h
    · split at h
      · split at h
        · rename_i he hs
          simp only [Option.some.injEq, Prod.mk.injEq] at h
          obtain ⟨h1, h2, _⟩ := h
          rw [← h1] at ht
          rw [← h2, ← h1]
          rw [tables_match_declTypeSize _ _ _ ht he hs]
        · cases h
      · cases h

theorem readDecl_stride (U : DeclUsage → Nat) (n : Nat) :
    ∀ (v : Nat) (f : List Nat) (elems : List OpenGLVertexElement) (v1 : Nat) (f1 : List Nat),
      readDecl U n v f = some (elems, v1, f1) → (∀ e ∈ elems, e.Type_ ≤ 4) →
      v + 16 * n < U32 →
      elems.length = n ∧ v1 = v + (elems.map (fun e => declTypeSize e.Type_)).sum := by
  induction n with
  | zero =>
    intro v f elems v1 f1 h _ _
    simp only [readDecl, Option.some.injEq, Prod.mk.injEq] at h
    obtain ⟨h1, h2, _⟩ := h
    rw [← h1, ← h2]
    simp
  | succ n ih =>
    intro v f elems v1 f1 h ht hfit
    unfold readDecl at h
    cases he : readDeclElement U v f with
    | none => simp [he] at h
    | some r =>
      obtain ⟨elem, v2, f2⟩ := r
      simp only [he] at h
      cases hr : readDecl U n v2 f2 with
      | none => simp [hr] at h
      | some r2 =>
        obtain ⟨rest, v3, f3⟩ := r2
        simp only [hr, Option.some.injEq, Prod.mk.injEq] at h
        obtain ⟨h1, h2, _⟩ := h
        subst h1
        have hte : elem.Type_ ≤ 4 := ht elem (List.mem_cons_self _ _)
        have hsz : declTypeSize elem.Type_ ≤ 16 := by
          have : elem.Type_ ≤ 4 := hte
          interval_cases (elem.Type_) <;> decide
        have hv2 := readDeclElement_stride U v f elem v2 f2 he hte
        rw [Nat.mod_eq_of_lt (by omega)] at hv2
        obtain ⟨k1, k2⟩ := ih v2 f2 rest v3 f3 hr
          (fun e hm => ht e (List.mem_cons_of_mem _ hm)) (by omega)
        refine ⟨by simp [k1], ?_⟩
        rw [← h2, k2, hv2]
        simp only [List.map_cons, List.sum_cons]
        omega

theorem readDecl_length (U : DeclUsage → Nat) (n : Nat) :
    ∀ (v : Nat) (f : List Nat) (elems : List OpenGLVertexElement) (v1 : Nat) (f1 : List Nat),
      readDecl U n v f = some (elems, v1, f1) → elems.length = n := by
  induction n with
  | zero =>
    intro v f elems v1 f1 h
    simp only [readDecl, Option.some.injEq, Prod.mk.injEq] at h
    rw [← h.1]
    rfl
  | succ n ih =>
    intro v f elems v1 f1 h
    unfold readDecl at h
    cases he : readDeclElement U v f with
    | none => simp [he] at h
    | some r =>
      obtain ⟨elem, v2, f2⟩ := r
      simp only [he] at h
      cases hr : readDecl U n v2 f2 with
      | none => simp [hr] at h
      | some r2 =>
        obtain ⟨rest, v3, f3⟩ := r2
        simp only [hr, Option.some.injEq, Prod.mk.injEq] at h
        rw [← h.1, List.length_cons, ih v2 f2 rest v3 f3 hr]

theorem vstride_eq_mesh_stride (U : DeclUsage → Nat) (n : Nat) (f1 : List Nat)
    (elems : List OpenGLVertexElement) (vstride : Nat) (f2 : List Nat)
    (hread : readDecl U n 0 f1 = some (elems, vstride, f2)) (hlen : n ≤ 16)
    (hstream : ∀ e ∈ elems, e.Stream ≠ 0xff) (htype : ∀ e ∈ elems, e.Type_ ≤ 4)
    (numfaces numvertices : Nat) :
    vstride = (elems.map (fun e => declTypeSize e.Type_)).sum ∧
    (GLCreateMesh U numfaces numvertices 0 (elems ++ [sentinelElement])).stride
      = (elems.map (fun e => declTypeSize e.Type_)).sum := by
  have hn := readDecl_length U n 0 f1 elems vstride f2 hread
  obtain ⟨_, hvs⟩ := readDecl_stride U n 0 f1 elems vstride f2 hread htype
    (by simp only [U32]; omega)
  refine ⟨by rw [hvs]; omega, ?_⟩
  show strideLoop 16 (elems ++ sentinelElement :: []) 0 = _
  rw [strideLoop_layout elems [] sentinelElement hstream rfl,
    List.take_of_length_le (by omega)]
  omega

/-- C13: when the vertex layout table `GLLoadMeshFromQM` reads from a QM file has at most 16
elements, no element with stream id 0xFF and only the type codes 0 to 4, the stride the
loader accumulates from `elemsizes` and `elemstrides` is the stride `GLCreateMesh`
computes for the declaration the loader builds (the sum of the sizes of the elements),
whatever the face and vertex counts; the vertex buffer it locks has that stride times
the vertex count modulo 2^32 bytes, which is the number of vertex bytes the loader
reads, stride times vertex count, whenever that number is below 2^32; and a load that
gets past the payloads has read exactly as many vertex bytes as it locked, fewer than
2^32. -/
theorem C13_vertex_stride_agrees (U : DeclUsage → Nat) (n : Nat) (f1 : List Nat)
    (elems : List OpenGLVertexElement) (vstride : Nat) (f2 : List Nat)
    (hread : readDecl U n 0 f1 = some (elems, vstride, f2)) (hlen : n ≤ 16)
    (hstream : ∀ e ∈ elems, e.Stream ≠ 0xff) (htype : ∀ e ∈ elems, e.Type_ ≤ 4) :
    (∀ numfaces numvertices : Nat,
      vstride = (GLCreateMesh U numfaces numvertices 0 (elems ++ [sentinelElement])).stride ∧
      LockVertexBuffer (GLCreateMesh U numfaces numvertices 0 (elems ++ [sentinelElement]))
        = (vstride * numvertices) % U32 ∧
      (vstride * numvertices < U32 →
        vstride * numvertices
          = LockVertexBuffer (GLCreateMesh U numfaces numvertices 0
              (elems ++ [sentinelElement])))) ∧
    (∀ (f : List Nat) (g : QMGeometry) (rest : List Nat),
      readGeometry U f = some (g, rest) → g.decl = elems ++ [sentinelElement] →
      g.vstride = g.mesh.stride ∧
      g.vstride * g.numvertices = LockVertexBuffer g.mesh ∧
      g.vertexdata.length = LockVertexBuffer g.mesh ∧
      g.vstride * g.numvertices < U32) := by
  constructor
  · intro numfaces numvertices
    obtain ⟨h1, h2⟩ := vstride_eq_mesh_stride U n f1 elems vstride f2 hread hlen hstream
      htype numfaces numvertices
    have hlock : LockVertexBuffer (GLCreateMesh U numfaces numvertices 0
        (elems ++ [sentinelElement])) = (vstride * numvertices) % U32 := by
      show (numvertices * (GLCreateMesh U numfaces numvertices 0 _).stride) % U32 = _
      rw [h1, h2, Nat.mul_comm]
    refine ⟨by rw [h1, h2], hlock, ?_⟩
    intro hsmall
    rw [hlock, Nat.mod_eq_of_lt hsmall]
  · intro f g rest hgeo hdecl
    obtain ⟨hd, f3, elems1, f4, _, hread1, hdecl1, hmesh, hnv, _, _, hle, hvlen, _, _⟩ :=
      readGeometry_some U f g rest hgeo
    have heq : elems1 = elems := by
      rw [hdecl1] at hdecl
      exact List.append_inj_left' hdecl rfl
    subst heq
    have hn := readDecl_length U n 0 f1 elems1 vstride f2 hread
    have hn1 := readDecl_length U hd.numelems 0 f3 elems1 g.vstride f4 hread1
    obtain ⟨h1, h2⟩ := vstride_eq_mesh_stride U hd.numelems f3 elems1 g.vstride f4 hread1
      (by omega) hstream htype (hd.numindices / 3) hd.numvertices
    have hv : g.vstride = g.mesh.stride := by rw [hmesh, hdecl1, h1, h2]
    have hmod : LockVertexBuffer g.mesh = (g.vstride * g.numvertices) % U32 := by
      show (g.mesh.numvertices * g.mesh.stride) % U32 = _
      rw [← hv, hnv, hmesh, Nat.mul_comm]
      rfl
    have hpos : 0 < U32 := by decide
    have hlt := Nat.mod_lt (g.vstride * g.numvertices) hpos
    have hlock : g.vstride * g.numvertices = LockVertexBuffer g.mesh := by
      have := Nat.mod_le (g.vstride * g.numvertices) U32
      omega
    exact ⟨hv, hlock, by rw [hvlen, hlock], by omega⟩

/-- Witness of C13: the layout of the minimal file, one float3 position element, with
three vertices: stride 12 on both sides and 36 bytes read into 36 bytes locked. -/
theorem C13_vertex_stride_agrees_witness :
    (12 = (GLCreateMesh sampleUsage 1 3 0
        ([⟨0, 0, GLDECLTYPE_FLOAT3, 0, 0⟩] ++ [sentinelElement])).stride ∧
      LockVertexBuffer (GLCreateMesh sampleUsage 1 3 0
        ([⟨0, 0, GLDECLTYPE_FLOAT3, 0, 0⟩] ++ [sentinelElement])) = (12 * 3) % U32 ∧
      (12 * 3 < U32 →
        12 * 3 = LockVertexBuffer (GLCreateMesh sampleUsage 1 3 0
          ([⟨0, 0, GLDECLTYPE_FLOAT3, 0, 0⟩] ++ [sentinelElement])))) ∧
    (qmMinimalGeometry.vstride = qmMinimalGeometry.mesh.stride ∧
      qmMinimalGeometry.vstride * qmMinimalGeometry.numvertices
        = LockVertexBuffer qmMinimalGeometry.mesh ∧
      qmMinimalGeometry.vertexdata.length = LockVertexBuffer qmMinimalGeometry.mesh ∧
      qmMinimalGeometry.vstride * qmMinimalGeometry.numvertices < U32) :=
  ⟨(C13_vertex_stride_agrees sampleUsage 1 (qmFileMinimal.drop 36)
      [⟨0, 0, GLDECLTYPE_FLOAT3, 0, 0⟩] 12 (qmFileMinimal.drop 41)
      (by decide) (by decide) (by decide) (by decide)).1 1 3,
   (C13_vertex_stride_agrees sampleUsage 1 (qmFileMinimal.drop 36)
      [⟨0, 0, GLDECLTYPE_FLOAT3, 0, 0⟩] 12 (qmFileMinimal.drop 41)
      (by decide) (by decide) (by decide) (by decide)).2 qmFileMinimal qmMinimalGeometry
      (qmFileMinimal.drop 83) (by decide) (by decide)⟩

/-- Counterexample to C13 as stated: the file `qmFileVertexWrap` has a layout of one float1
element, for which the loader and `GLCreateMesh` agree on the stride 4, and a header
with 1073741824 vertices.  The loader asks `fread` for 4 * 1073741824 = 4294967296
vertex bytes, but the buffer `LockVertexBuffer` allocated for them has 0 bytes, and the
load has no defined result. -/
theorem C13_counterexample :
    (readHeader qmFileVertexWrap).map (fun r => (r.1.numvertices, r.1.numelems))
      = some (1073741824, 1) ∧
    (readDecl sampleUsage 1 0 (qmFileVertexWrap.drop 36)).map (fun r => (r.1, r.2.1))
      = some ([⟨0, 0, GLDECLTYPE_FLOAT1, 0, 0⟩], 4) ∧
    (GLCreateMesh sampleUsage 0 1073741824 0
      ([⟨0, 0, GLDECLTYPE_FLOAT1, 0, 0⟩] ++ [sentinelElement])).stride = 4 ∧
    4 * 1073741824 = 4294967296 ∧
    LockVertexBuffer (GLCreateMesh sampleUsage 0 1073741824 0
      ([⟨0, 0, GLDECLTYPE_FLOAT1, 0, 0⟩] ++ [sentinelElement])) = 0 ∧
    4 * 1073741824 ≠ LockVertexBuffer (GLCreateMesh sampleUsage 0 1073741824 0
      ([⟨0, 0, GLDECLTYPE_FLOAT1, 0, 0⟩] ++ [sentinelElement])) ∧
    readGeometry sampleUsage qmFileVertexWrap = none ∧
    GLLoadMeshFromQM sampleUsage (fun _ => 0) qmFileVertexWrap = none := by
  refine ⟨?_, ?_, ?_, ?_, ?_, ?_, ?_, ?_⟩
  · decide
  · decide
  · decide
  · decide
  · decide
  · decide
  · decide
  · decide

end GLExt
